import Mathlib

/-!
# Product review chaincode (`src/product_review.go`)

A shallow embedding of the chaincode and theorems about it.

Modelling conventions.

* A Go `string` is a Lean `String`; `len(s)` is `s.utf8ByteSize`.  Byte
  sequences that are not valid UTF-8 are outside the model.
* A Go `[]byte` is an `Option String`: `none` is the nil slice, `some s` a
  non-nil slice holding the bytes of `s` (`some ""` is the empty non-nil
  slice).  `x == nil` is therefore `x = none`.
* An `error` value is an `Option String`: `none` is the nil error, `some e`
  an error whose `Error()` text is `e`.
* The ledger behind `shim.ChaincodeStubInterface` is an explicit value that is
  passed in and returned; every stub call a handler makes is recorded in the
  order it is made.
* A run-time panic (index out of range, nil dereference) is an outcome without
  a response.
* `strings.ToLower`, `json.Marshal` and `json.Unmarshal` are library code and
  are taken as parameters (`GoLib`).  Where a theorem needs a fact about them
  it is a hypothesis that says what the library writes or reads
  (`marshalText`, `jsonUnquote`), never the conclusion itself.
* The failure behaviour of the store is part of the `Ledger` value; where two
  calls follow each other the second may run on a ledger with the same state
  and another failure behaviour.
* Logging (`logger.Errorf`, `logger.Warningf`, `logger.SetLevel`) touches
  neither the response nor the ledger and is left out.
-/

namespace ProductReview

/-! ## Document -/

/-- The `Doc` struct of the source: five text fields. -/
structure Doc where
  Text : String
  Review : String
  Name : String
  Location : String
  Rating : String
  deriving DecidableEq, Repr

/-- The Go library functions the chaincode calls: `strings.ToLower`,
`json.Marshal` on a `Doc` (it cannot fail on a struct of strings and returns a
non-nil slice, whose bytes are given here) and `json.Unmarshal` into a `Doc`
(its error is discarded by the caller; the result is the receiver after the
call). -/
structure GoLib where
  ToLower : String → String
  jsonMarshal : Doc → String
  jsonUnmarshal : String → Doc → Doc

/-- The zero value of `Doc` (`var doc Doc`). -/
def Doc.zero : Doc := ⟨"", "", "", "", ""⟩

/-- Go `func (doc *Doc) FromJson(input []byte) *Doc`: unmarshal into the receiver,
ignore the error, return the receiver.  A nil input has no bytes. -/
def Doc.FromJson (lib : GoLib) (doc : Doc) (input : Option String) : Doc :=
  lib.jsonUnmarshal (input.getD "") doc

/-- Go `func (doc *Doc) ToJson() []byte`. -/
def Doc.ToJson (lib : GoLib) (doc : Doc) : Option String :=
  some (lib.jsonMarshal doc)

/-! ## Return handling -/

/-- The response envelope `peer.Response`. -/
structure Response where
  Status : Int
  Message : String
  Payload : Option String
  deriving DecidableEq, Repr

/-- Go `func Error(rc int32, doc string) peer.Response`. -/
def Error (rc : Int) (doc : String) : Response :=
  { Status := rc, Message := doc, Payload := none }

/-- Go `func Success(rc int32, doc string, payload []byte) peer.Response`.
The length test is on `doc`, as in the source. -/
def Success (rc : Int) (doc : String) (payload : Option String) : Response :=
  if doc.utf8ByteSize > 1048576 then
    Error 500 "Maximum return payload length of 1MB exceeded!"
  else
    { Status := rc, Message := doc, Payload := payload }

/-! ## The ledger behind the stub -/

/-- One query result, `queryresult.KV`. -/
structure KV where
  Key : String
  Value : Option String
  deriving DecidableEq, Repr

/-- The ledger the stub talks to.

* `state k` is the value stored at `k` (`none` when the key is absent);
* `getError k` is the error `GetState` reports for `k`, if any;
* `putError k v` is the error `PutState` reports for writing `v` at `k`;
* `queryEngine` answers a selector query over the current state with either
  an error text or the finite sequence the iterator will yield; an element
  `none` stands for a `Next()` that fails and hands back a nil result. -/
structure Ledger where
  state : String → Option String
  getError : String → Option String
  putError : String → Option String → Option String
  queryEngine : (String → Option String) → String → Except String (List (Option KV))

/-- Go `stub.GetState(key)`: the pair `(value, err)`. -/
def Ledger.GetState (l : Ledger) (key : String) : Option String × Option String :=
  (l.state key, l.getError key)

/-- Go `stub.PutState(key, value)`: the ledger afterwards and `err`. -/
def Ledger.PutState (l : Ledger) (key : String) (value : Option String) :
    Ledger × Option String :=
  match l.putError key value with
  | some e => (l, some e)
  | none => ({ l with state := Function.update l.state key value }, none)

/-- Go `stub.GetQueryResult(query)`: an error text or the iterator's sequence. -/
def Ledger.GetQueryResult (l : Ledger) (query : String) :
    Except String (List (Option KV)) :=
  l.queryEngine l.state query

/-- The calls a handler makes on the stub and on the result iterator. -/
inductive StubCall where
  | getState (key : String)
  | putState (key : String) (value : Option String)
  | getQueryResult (query : String)
  | hasNext
  | next
  | close
  deriving DecidableEq, Repr

/-- What one handler call leaves behind: the ledger, the stub calls made in
order, and the response (`none` when the call panicked). -/
structure Outcome where
  ledger : Ledger
  calls : List StubCall
  response : Option Response

/-- Whether a stub call is a write (`PutState`). -/
def StubCall.isWrite : StubCall → Bool
  | .putState _ _ => true
  | _ => false

/-! ## Handlers -/

/-- Go `func (cc *ProductReview) Init(stub) peer.Response`, with `args` the
parameters `stub.GetFunctionAndParameters()` returns. -/
def Init (l : Ledger) (args : List String) : Outcome :=
  if args.length > 0 then
    ⟨l, [], some (Error 400 "Init: Incorrect number of arguments; no arguments were expected.")⟩
  else
    ⟨l, [], some (Success 200 "OK" none)⟩

/-- Go `func (cc *ProductReview) read(stub, args) peer.Response`. -/
def read (lib : GoLib) (l : Ledger) (args : List String) : Outcome :=
  match args[0]? with
  | none => ⟨l, [], none⟩
  | some a0 =>
    let id := lib.ToLower a0
    let r := l.GetState id
    if r.2 ≠ none ∨ r.1 = none then
      ⟨l, [.getState id], some (Error 404 "Not Found")⟩
    else
      ⟨l, [.getState id], some (Success 200 "OK" r.1)⟩

/-- Go `func (cc *ProductReview) create(stub, args) peer.Response`. -/
def create (lib : GoLib) (l : Ledger) (args : List String) : Outcome :=
  match args[0]?, args[1]?, args[2]?, args[3]?, args[4]?, args[5]? with
  | some a0, some a1, some a2, some a3, some a4, some a5 =>
    let id := lib.ToLower a0
    let doc : Doc := { Text := a1, Review := a2, Name := a3, Location := a4, Rating := a5 }
    let r := l.GetState id
    if ¬ (r.2 = none ∧ r.1 = none) then
      ⟨l, [.getState id], some (Error 409 "Text Exists")⟩
    else
      let w := l.PutState id (doc.ToJson lib)
      match w.2 with
      | some e =>
        ⟨w.1, [.getState id, .putState id (doc.ToJson lib)], some (Error 500 e)⟩
      | none =>
        ⟨w.1, [.getState id, .putState id (doc.ToJson lib)],
          some (Success 201 "Text Created" none)⟩
  | _, _, _, _, _, _ => ⟨l, [], none⟩

/-- Go `strings.Replace(s, old, new, -1)` for one-character `old` and `new`. -/
def Replace (s : String) (old new : Char) : String :=
  String.mk (s.data.map (fun c => if c = old then new else c))

/-- The quote character. -/
def quoteChar : Char := Char.ofNat 34

/-- The dot character. -/
def dotChar : Char := Char.ofNat 46

/-- The format string of `search` up to `%s`:
`{"selector": {"text": {"$regex": "`. -/
def queryHead : String :=
  "\x7b\"selector\": \x7b\"text\": \x7b\"$regex\": \""

/-- The format string of `search` after `%s`:
`"}}, "fields": ["text","review","name","location","rating"], "limit":99}`. -/
def queryTail : String :=
  "\"\x7d\x7d, \"fields\": [\"text\",\"review\",\"name\",\"location\",\"rating\"], \"limit\":99\x7d"

/-- The query string `search` builds from `args[0]`: the first `Replace`
gives `searchString`, the second is the argument of `fmt.Sprintf`. -/
def queryString (a0 : String) : String :=
  let searchString := Replace a0 quoteChar dotChar
  queryHead ++ Replace searchString quoteChar dotChar ++ queryTail

/-- The `for resultsIterator.HasNext()` loop of `search`: the iterator calls
made and the buffer at loop exit (`none` when `it` is nil and `it.Key`
panics). -/
def writeResults (lib : GoLib) : List (Option KV) → String → List StubCall × Option String
  | [], buffer => ([.hasNext], some buffer)
  | none :: _, _ => ([.hasNext, .next], none)
  | some it :: rest, buffer =>
    let buffer := if buffer.utf8ByteSize > 15 then buffer ++ "," else buffer
    let doc := Doc.zero
    let buffer := buffer ++ "\x7b\"id\":\""
    let buffer := buffer ++ it.Key
    let buffer := buffer ++ "\", \"review\":\""
    let doc := doc.FromJson lib it.Value
    let buffer := buffer ++ doc.Review
    let buffer := buffer ++ "\", \"product\":\""
    let doc := doc.FromJson lib it.Value
    let buffer := buffer ++ doc.Text
    let buffer := buffer ++ "\", \"name\":\""
    let doc := doc.FromJson lib it.Value
    let buffer := buffer ++ doc.Name
    let buffer := buffer ++ "\", \"location\":\""
    let doc := doc.FromJson lib it.Value
    let buffer := buffer ++ doc.Location
    let buffer := buffer ++ "\", \"rating\":\""
    let doc := doc.FromJson lib it.Value
    let buffer := buffer ++ doc.Rating
    let buffer := buffer ++ "\"\x7d"
    let r := writeResults lib rest buffer
    (.hasNext :: .next :: r.1, r.2)

/-- Go `func (cc *ProductReview) search(stub, args) peer.Response`.  The deferred
`Close()` runs on the normal return and on a panic in the loop. -/
def search (lib : GoLib) (l : Ledger) (args : List String) : Outcome :=
  match args[0]? with
  | none => ⟨l, [], none⟩
  | some a0 =>
    let query := queryString a0
    match l.GetQueryResult query with
    | .error e => ⟨l, [.getQueryResult query], some (Error 500 e)⟩
    | .ok resultsIterator =>
      let r := writeResults lib resultsIterator "\x7b \"values\": ["
      match r.2 with
      | none => ⟨l, .getQueryResult query :: r.1 ++ [.close], none⟩
      | some buffer =>
        let buffer := buffer ++ "]\x7d"
        ⟨l, .getQueryResult query :: r.1 ++ [.close], some (Success 200 "OK" (some buffer))⟩

/-- Go `func (cc *ProductReview) Invoke(stub) peer.Response`, with `function` and
`args` the pair `stub.GetFunctionAndParameters()` returns. -/
def Invoke (lib : GoLib) (l : Ledger) (function : String) (args : List String) : Outcome :=
  if function = "read" then read lib l args
  else if function = "create" then create lib l args
  else if function = "search" then search lib l args
  else
    ⟨l, [], some (Error 501
      "Invalid method! Valid methods are 'create|update|delete|exist|read|history|search'!")⟩

/-! ## Sequences of calls -/

/-- One invocation: the operation name and its parameters. -/
structure Call where
  function : String
  args : List String
  deriving DecidableEq, Repr

/-- The ledger after a sequence of `Invoke` calls, each run on the ledger the
previous one left. -/
def runCalls (lib : GoLib) (l : Ledger) : List Call → Ledger
  | [] => l
  | c :: cs => runCalls lib (Invoke lib l c.function c.args).ledger cs

/-- The calls of a sequence paired with their outcomes, in order. -/
def runTrace (lib : GoLib) (l : Ledger) : List Call → List (Call × Outcome)
  | [] => []
  | c :: cs =>
    (c, Invoke lib l c.function c.args) ::
      runTrace lib (Invoke lib l c.function c.args).ledger cs

/-- The empty store: no key holds a value.  Its failure behaviour and query
engine are arbitrary. -/
def Ledger.empty (getError : String → Option String)
    (putError : String → Option String → Option String)
    (queryEngine : (String → Option String) → String → Except String (List (Option KV))) :
    Ledger :=
  { state := fun _ => none, getError := getError, putError := putError,
    queryEngine := queryEngine }

/-! ## Reading the query as JSON text -/

/-- The backslash character. -/
def backslashChar : Char := Char.ofNat 92

/-- Reading a JSON string literal, as a JSON reader does, from the text that
follows its opening quote: an unescaped quote ends the literal, a backslash
escapes the character after it.  The result is the raw content of the literal
and the text after its closing quote; `none` when the literal is never
closed. -/
def scanStringLiteral : List Char → Option (List Char × List Char)
  | [] => none
  | [c] => if c = quoteChar then some ([], []) else none
  | c :: e :: rest =>
    if c = quoteChar then some ([], e :: rest)
    else if c = backslashChar then
      (scanStringLiteral rest).map (fun p => (c :: e :: p.1, p.2))
    else
      (scanStringLiteral (e :: rest)).map (fun p => (c :: p.1, p.2))

/-! ## Sample instances for concrete evaluation -/

/-- Drop a fixed text from the front of the input, if it is there. -/
def dropText : List Char → List Char → Option (List Char)
  | [], s => some s
  | _ :: _, [] => none
  | p :: ps, c :: cs => if p = c then dropText ps cs else none

/-- Split the input at its first quote character. -/
def untilQuote : List Char → Option (List Char × List Char)
  | [] => none
  | c :: cs =>
    if c = quoteChar then some ([], cs)
    else (untilQuote cs).map (fun p => (c :: p.1, p.2))

/-- One `"name":"value"` member whose value needs no escaping, preceded by
the text `lead`. -/
def readField (lead : String) (s : List Char) : Option (String × List Char) :=
  (dropText lead.data s).bind (fun r => (untilQuote r).map (fun p => (String.mk p.1, p.2)))

/-- The text `json.Marshal` emits for a `Doc` whose fields need no escaping. -/
def plainMarshal (d : Doc) : String :=
  "\x7b\"text\":\"" ++ d.Text ++ "\",\"review\":\"" ++ d.Review ++ "\",\"name\":\"" ++ d.Name
    ++ "\",\"location\":\"" ++ d.Location ++ "\",\"rating\":\"" ++ d.Rating ++ "\"\x7d"

/-- A reader for the text of `plainMarshal`; any other input leaves the
receiver as it is. -/
def plainUnmarshal (s : String) (d : Doc) : Doc :=
  let parsed : Option Doc :=
    (readField "\x7b\"text\":\"" s.data).bind fun t =>
    (readField ",\"review\":\"" t.2).bind fun r =>
    (readField ",\"name\":\"" r.2).bind fun n =>
    (readField ",\"location\":\"" n.2).bind fun o =>
    (readField ",\"rating\":\"" o.2).bind fun g =>
    if g.2 = [Char.ofNat 125] then some ⟨t.1, r.1, n.1, o.1, g.1⟩ else none
  parsed.getD d

/-- A sample library: ASCII case folding and the plain-text codec. -/
def sampleLib : GoLib :=
  { ToLower := fun s => String.mk (s.data.map Char.toLower),
    jsonMarshal := plainMarshal,
    jsonUnmarshal := plainUnmarshal }

/-- A sample empty store on which no call fails and every query has no
results. -/
def sampleLedger : Ledger :=
  Ledger.empty (fun _ => none) (fun _ _ => none) (fun _ _ => .ok [])

/-- A store in which every key holds the empty, non-nil value and no call
fails. -/
def emptyValueLedger : Ledger :=
  { sampleLedger with state := fun _ => some "" }

/-- A text of 1048577 one-byte characters, one byte over 1 MiB. -/
def bigText : String := String.mk (List.replicate 1048577 (Char.ofNat 97))

/-! ## The search aggregate as described -/

/-- The object text of one search result as the description gives it:
`{"id":"KEY", "review":"R", "product":"T", "name":"N", "location":"L", "rating":"G"}`
for the key and the decoded document. -/
def renderObject (key : String) (d : Doc) : String :=
  "\x7b\"id\":\"" ++ key ++ "\", \"review\":\"" ++ d.Review ++ "\", \"product\":\"" ++ d.Text
    ++ "\", \"name\":\"" ++ d.Name ++ "\", \"location\":\"" ++ d.Location
    ++ "\", \"rating\":\"" ++ d.Rating ++ "\"\x7d"

/-- The texts of a list written one after the other with exactly one comma
between consecutive ones, none before the first and none after the last. -/
def joinComma : List String → String
  | [] => ""
  | [a] => a
  | a :: b :: rest => a ++ "," ++ joinComma (b :: rest)

/-- Two query results: keys "a" and "b" with plain documents. -/
def twoRecords : List KV :=
  [⟨"a", some (plainMarshal ⟨"t", "r", "n", "l", "g"⟩)⟩,
   ⟨"b", some (plainMarshal ⟨"t2", "r2", "n2", "l2", "g2"⟩)⟩]

/-- One query result whose key holds quotes and braces: the key is the text
`a", "review":"r", "product":"t", "name":"n", "location":"l", "rating":"g"},{"id":"b`. -/
def oneRecord : List KV :=
  [⟨"a\", \"review\":\"r\", \"product\":\"t\", \"name\":\"n\", \"location\":\"l\", \"rating\":\"g\"\x7d,\x7b\"id\":\"b",
    some (plainMarshal ⟨"t2", "r2", "n2", "l2", "g2"⟩)⟩]

/-- A store on which no call fails and every query yields the given results. -/
def resultsLedger (results : List KV) : Ledger :=
  Ledger.empty (fun _ => none) (fun _ _ => none) (fun _ _ => .ok (results.map some))

/-- The entry `p` of a trace is a `create` call that answered 201 and wrote
the value `v` at the key `k`: its first argument folds to `k` and `v` is the
encoding of its next five arguments. -/
def WroteBy (lib : GoLib) (p : Call × Outcome) (k : String) (v : Option String) : Prop :=
  ∃ a0 a1 a2 a3 a4 a5,
    p.1.function = "create" ∧
    p.1.args[0]? = some a0 ∧ p.1.args[1]? = some a1 ∧ p.1.args[2]? = some a2 ∧
    p.1.args[3]? = some a3 ∧ p.1.args[4]? = some a4 ∧ p.1.args[5]? = some a5 ∧
    p.2.response = some { Status := 201, Message := "Text Created", Payload := none } ∧
    lib.ToLower a0 = k ∧ v = Doc.ToJson lib ⟨a1, a2, a3, a4, a5⟩

/-- Three query results, the second and third with values that are not
documents. -/
def mixedRecords : List KV :=
  [⟨"r1", some (plainMarshal ⟨"Widget", "Great!", "Alice", "NY", "5"⟩)⟩, ⟨"r2", some "garbage"⟩,
   ⟨"r3", none⟩]

/-- A store on which no call fails and whose query iterator yields one record
and then fails its second `Next`. -/
def failingNextLedger : Ledger :=
  Ledger.empty (fun _ => none) (fun _ _ => none)
    (fun _ _ => .ok [some ⟨"r1", some (plainMarshal ⟨"Widget", "Great!", "Alice", "NY", "5"⟩)⟩,
      none])

/-! ## What `encoding/json` writes and reads

`json.Marshal` and `json.Unmarshal` stay parameters of the embedding.  The
definitions below say, for texts that are valid UTF-8, which JSON text
`json.Marshal` writes for a `Doc` and how a JSON string literal is read; they
are used to state the two facts about the library the round trip of a
document rests on. -/

/-- The lower-case hexadecimal digit of a number below 16. -/
def hexDigit (n : Nat) : Char :=
  if n < 10 then Char.ofNat (48 + n) else Char.ofNat (87 + n)

/-- How `json.Marshal` writes one character of a string: the quote and the
backslash behind a backslash; line feed, carriage return and tab as `\n`, `\r`
and `\t`; backspace and form feed as `\b` and `\f` when `short` is set (Go
1.22 and later) and as `\u0008` and `\u000c` otherwise; every other character
below U+0020 and the characters `<`, `>` and `&` as `\u00XX` with lower-case
digits; the separators U+2028 and U+2029 as `\u2028` and `\u2029`; every
other character as it is. -/
def jsonEscapeChar (short : Bool) (c : Char) : List Char :=
  if c = quoteChar ∨ c = backslashChar then [backslashChar, c]
  else if c = Char.ofNat 10 then [backslashChar, Char.ofNat 110]
  else if c = Char.ofNat 13 then [backslashChar, Char.ofNat 114]
  else if c = Char.ofNat 9 then [backslashChar, Char.ofNat 116]
  else if short = true ∧ c = Char.ofNat 8 then [backslashChar, Char.ofNat 98]
  else if short = true ∧ c = Char.ofNat 12 then [backslashChar, Char.ofNat 102]
  else if c.toNat < 32 ∨ c = Char.ofNat 60 ∨ c = Char.ofNat 62 ∨ c = Char.ofNat 38 then
    [backslashChar, Char.ofNat 117, Char.ofNat 48, Char.ofNat 48,
      hexDigit (c.toNat / 16), hexDigit (c.toNat % 16)]
  else if c = Char.ofNat 8232 ∨ c = Char.ofNat 8233 then
    [backslashChar, Char.ofNat 117, Char.ofNat 50, Char.ofNat 48, Char.ofNat 50,
      hexDigit (c.toNat % 16)]
  else [c]

/-- The characters of a string as `json.Marshal` writes them, one after the
other. -/
def jsonEscapeChars (short : Bool) : List Char → List Char
  | [] => []
  | c :: cs => jsonEscapeChar short c ++ jsonEscapeChars short cs

/-- What `json.Marshal` writes between the quotes for a string. -/
def jsonEscape (short : Bool) (s : String) : String :=
  String.mk (jsonEscapeChars short s.data)

/-- The JSON object with the members `text`, `review`, `name`, `location` and
`rating`, in this order and without blanks, whose values are the string
literals with the given texts between their quotes. -/
def jsonObject (b1 b2 b3 b4 b5 : String) : String :=
  "\x7b\"text\":\"" ++ b1 ++ "\",\"review\":\"" ++ b2 ++ "\",\"name\":\"" ++ b3
    ++ "\",\"location\":\"" ++ b4 ++ "\",\"rating\":\"" ++ b5 ++ "\"\x7d"

/-- The text `json.Marshal` writes for a `Doc`: the object of its five fields
in the order of the struct, under the names of the `json` tags. -/
def marshalText (short : Bool) (d : Doc) : String :=
  jsonObject (jsonEscape short d.Text) (jsonEscape short d.Review) (jsonEscape short d.Name)
    (jsonEscape short d.Location) (jsonEscape short d.Rating)

/-- Where a reader of a JSON string literal stands: between characters, right
after a backslash, or inside the four hexadecimal digits of a `\u` escape
with `left` digits to come and the value `acc` read so far. -/
inductive UnquoteMode where
  | plain
  | escape
  | hex (left : Nat) (acc : Nat)

/-- The value of a hexadecimal digit, of either case. -/
def hexValue (c : Char) : Option Nat :=
  if 48 ≤ c.toNat ∧ c.toNat ≤ 57 then some (c.toNat - 48)
  else if 97 ≤ c.toNat ∧ c.toNat ≤ 102 then some (c.toNat - 87)
  else if 65 ≤ c.toNat ∧ c.toNat ≤ 70 then some (c.toNat - 55)
  else none

/-- The character a two-character JSON escape stands for: the quote, the
backslash and the slash for themselves, `b`, `f`, `n`, `r` and `t` for
backspace, form feed, line feed, carriage return and tab. -/
def shortEscape (c : Char) : Option Char :=
  if c = quoteChar then some quoteChar
  else if c = backslashChar then some backslashChar
  else if c = Char.ofNat 47 then some (Char.ofNat 47)
  else if c = Char.ofNat 98 then some (Char.ofNat 8)
  else if c = Char.ofNat 102 then some (Char.ofNat 12)
  else if c = Char.ofNat 110 then some (Char.ofNat 10)
  else if c = Char.ofNat 114 then some (Char.ofNat 13)
  else if c = Char.ofNat 116 then some (Char.ofNat 9)
  else none

/-- The character a `\uXXXX` escape stands for; the surrogate range, which is
read in pairs, is left out. -/
def codeUnit (n : Nat) : Option Char :=
  if 55296 ≤ n ∧ n ≤ 57343 then none else some (Char.ofNat n)

/-- The text a JSON string literal stands for, read from the characters
between its quotes: `none` when they hold a bare quote, a bare control
character, an unknown or unfinished escape, or a surrogate escape. -/
def unquoteFrom : UnquoteMode → List Char → Option (List Char)
  | .plain, [] => some []
  | .escape, [] => none
  | .hex _ _, [] => none
  | .plain, c :: cs =>
    if c = quoteChar then none
    else if c = backslashChar then unquoteFrom .escape cs
    else if c.toNat < 32 then none
    else (unquoteFrom .plain cs).map (fun r => c :: r)
  | .escape, c :: cs =>
    if c = Char.ofNat 117 then unquoteFrom (.hex 4 0) cs
    else (shortEscape c).bind (fun x => (unquoteFrom .plain cs).map (fun r => x :: r))
  | .hex 0 _, _ :: _ => none
  | .hex (k + 1) acc, c :: cs =>
    (hexValue c).bind (fun v =>
      if k = 0 then
        (codeUnit (acc * 16 + v)).bind (fun x => (unquoteFrom .plain cs).map (fun r => x :: r))
      else unquoteFrom (.hex k (acc * 16 + v)) cs)

/-- The text a JSON string literal with the given text between its quotes
stands for. -/
def jsonUnquote (body : String) : Option String :=
  (unquoteFrom .plain body.data).map String.mk

/-! ## A sample library that escapes -/

/-- Read a JSON string literal from the text after its opening quote: the
text it stands for and the text after its closing quote. -/
def readLiteral : UnquoteMode → List Char → Option (List Char × List Char)
  | _, [] => none
  | .plain, c :: cs =>
    if c = quoteChar then some ([], cs)
    else if c = backslashChar then readLiteral .escape cs
    else if c.toNat < 32 then none
    else (readLiteral .plain cs).map (fun p => (c :: p.1, p.2))
  | .escape, c :: cs =>
    if c = Char.ofNat 117 then readLiteral (.hex 4 0) cs
    else (shortEscape c).bind (fun x => (readLiteral .plain cs).map (fun p => (x :: p.1, p.2)))
  | .hex 0 _, _ :: _ => none
  | .hex (k + 1) acc, c :: cs =>
    (hexValue c).bind (fun v =>
      if k = 0 then
        (codeUnit (acc * 16 + v)).bind
          (fun x => (readLiteral .plain cs).map (fun p => (x :: p.1, p.2)))
      else readLiteral (.hex k (acc * 16 + v)) cs)

/-- One member of the object: the text `lead`, then a string literal. -/
def readMember (lead : String) (s : List Char) : Option (String × List Char) :=
  (dropText lead.data s).bind
    (fun r => (readLiteral .plain r).map (fun p => (String.mk p.1, p.2)))

/-- A reader for the objects of `jsonObject`; any other input leaves the
receiver as it is. -/
def escapingUnmarshal (s : String) (d : Doc) : Doc :=
  let parsed : Option Doc :=
    (readMember "\x7b\"text\":\"" s.data).bind fun t =>
    (readMember ",\"review\":\"" t.2).bind fun r =>
    (readMember ",\"name\":\"" r.2).bind fun n =>
    (readMember ",\"location\":\"" n.2).bind fun o =>
    (readMember ",\"rating\":\"" o.2).bind fun g =>
    if g.2 = [Char.ofNat 125] then some ⟨t.1, r.1, n.1, o.1, g.1⟩ else none
  parsed.getD d

/-- A sample library with ASCII case folding that writes documents as
`json.Marshal` does and reads the objects so written. -/
def escapingLib : GoLib :=
  { ToLower := fun s => String.mk (s.data.map Char.toLower),
    jsonMarshal := marshalText true,
    jsonUnmarshal := escapingUnmarshal }

/-- A store in which every key is absent and every write succeeds, but on
which every lookup reports an error. -/
def lookupErrorLedger : Ledger :=
  { sampleLedger with getError := fun _ => some "ledger unavailable" }

/-! ## Basic facts about the handlers -/

theorem Success_of_le (rc : Int) (doc : String) (payload : Option String)
    (h : doc.utf8ByteSize ≤ 1048576) :
    Success rc doc payload = { Status := rc, Message := doc, Payload := payload } := by
  unfold Success
  rw [if_neg (by omega)]

theorem Success_OK (rc : Int) (payload : Option String) :
    Success rc "OK" payload = { Status := rc, Message := "OK", Payload := payload } :=
  Success_of_le rc "OK" payload (by decide)

theorem Success_TextCreated (rc : Int) (payload : Option String) :
    Success rc "Text Created" payload =
      { Status := rc, Message := "Text Created", Payload := payload } :=
  Success_of_le rc "Text Created" payload (by decide)

theorem Invoke_read (lib : GoLib) (l : Ledger) (args : List String) :
    Invoke lib l "read" args = read lib l args := by
  simp [Invoke]

theorem Invoke_create (lib : GoLib) (l : Ledger) (args : List String) :
    Invoke lib l "create" args = create lib l args := by
  have h : ¬ ("create" = "read") := by decide
  simp [Invoke, h]

theorem Invoke_search (lib : GoLib) (l : Ledger) (args : List String) :
    Invoke lib l "search" args = search lib l args := by
  have h1 : ¬ ("search" = "read") := by decide
  have h2 : ¬ ("search" = "create") := by decide
  simp [Invoke, h1, h2]

/-- The result of `read` on a one-argument list, by the lookup's result. -/
theorem read_one (lib : GoLib) (l : Ledger) (id : String) :
    read lib l [id] =
      if l.getError (lib.ToLower id) ≠ none ∨ l.state (lib.ToLower id) = none then
        ⟨l, [.getState (lib.ToLower id)], some (Error 404 "Not Found")⟩
      else
        ⟨l, [.getState (lib.ToLower id)],
          some { Status := 200, Message := "OK", Payload := l.state (lib.ToLower id) }⟩ := by
  simp [read, Ledger.GetState, Success_OK]

/-- The result of `create` on a six-argument list when the probe finds the
key taken or fails. -/
theorem create_six_conflict (lib : GoLib) (l : Ledger)
    (id text review name location rating : String)
    (h : ¬ (l.getError (lib.ToLower id) = none ∧ l.state (lib.ToLower id) = none)) :
    create lib l [id, text, review, name, location, rating] =
      ⟨l, [.getState (lib.ToLower id)], some (Error 409 "Text Exists")⟩ := by
  simp only [create, List.getElem?_cons_zero, List.getElem?_cons_succ, Ledger.GetState]
  rw [if_pos h]

/-- The result of `create` on a six-argument list when the probe comes back
as (nil, nil). -/
theorem create_six_write (lib : GoLib) (l : Ledger)
    (id text review name location rating : String)
    (h : l.getError (lib.ToLower id) = none ∧ l.state (lib.ToLower id) = none) :
    create lib l [id, text, review, name, location, rating] =
      match l.putError (lib.ToLower id) (Doc.ToJson lib ⟨text, review, name, location, rating⟩) with
      | some e =>
        ⟨l, [.getState (lib.ToLower id),
              .putState (lib.ToLower id) (Doc.ToJson lib ⟨text, review, name, location, rating⟩)],
          some (Error 500 e)⟩
      | none =>
        ⟨{ l with
            state := Function.update l.state (lib.ToLower id)
              (Doc.ToJson lib ⟨text, review, name, location, rating⟩) },
          [.getState (lib.ToLower id),
            .putState (lib.ToLower id) (Doc.ToJson lib ⟨text, review, name, location, rating⟩)],
          some { Status := 201, Message := "Text Created", Payload := none }⟩ := by
  simp only [create, List.getElem?_cons_zero, List.getElem?_cons_succ, Ledger.GetState]
  rw [if_neg (not_not_intro h)]
  simp only [Ledger.PutState]
  cases hp : l.putError (lib.ToLower id) (Doc.ToJson lib ⟨text, review, name, location, rating⟩) with
  | none => simp [Success_TextCreated]
  | some e => simp

theorem read_ledger (lib : GoLib) (l : Ledger) (args : List String) :
    (read lib l args).ledger = l := by
  unfold read
  split
  · rfl
  · dsimp only
    split <;> rfl

theorem search_ledger (lib : GoLib) (l : Ledger) (args : List String) :
    (search lib l args).ledger = l := by
  unfold search
  split
  · rfl
  · dsimp only
    split
    · rfl
    · split <;> rfl

/-- What `create` does to the ledger: nothing, or one write at the folded
first argument, and then only after a probe that came back as (nil, nil) and
with the response 201. -/
theorem create_effect (lib : GoLib) (l : Ledger) (args : List String) :
    (create lib l args).ledger = l ∨
    ∃ a0 a1 a2 a3 a4 a5, args[0]? = some a0 ∧
      l.getError (lib.ToLower a0) = none ∧ l.state (lib.ToLower a0) = none ∧
      (create lib l args).response =
        some { Status := 201, Message := "Text Created", Payload := none } ∧
      (create lib l args).ledger =
        { l with
          state := Function.update l.state (lib.ToLower a0)
            (Doc.ToJson lib ⟨a1, a2, a3, a4, a5⟩) } := by
  unfold create
  split
  · rename_i a0 a1 a2 a3 a4 a5 h0 h1 h2 h3 h4 h5
    dsimp only [Ledger.GetState]
    by_cases h : l.getError (lib.ToLower a0) = none ∧ l.state (lib.ToLower a0) = none
    · rw [if_neg (not_not_intro h)]
      cases hp : l.putError (lib.ToLower a0) (Doc.ToJson lib ⟨a1, a2, a3, a4, a5⟩) with
      | some e =>
        left
        simp [Ledger.PutState, hp]
      | none =>
        right
        refine ⟨a0, a1, a2, a3, a4, a5, h0, h.1, h.2, ?_, ?_⟩
        · simp [Ledger.PutState, hp, Success_TextCreated]
        · simp [Ledger.PutState, hp]
    · rw [if_pos h]
      exact Or.inl rfl
  · exact Or.inl rfl

/-- What `Invoke` does to the ledger: nothing, or the one write of a `create`
that answered 201. -/
theorem Invoke_effect (lib : GoLib) (l : Ledger) (function : String) (args : List String) :
    (Invoke lib l function args).ledger = l ∨
    (function = "create" ∧ ∃ a0 a1 a2 a3 a4 a5, args[0]? = some a0 ∧
      l.getError (lib.ToLower a0) = none ∧ l.state (lib.ToLower a0) = none ∧
      (Invoke lib l function args).response =
        some { Status := 201, Message := "Text Created", Payload := none } ∧
      (Invoke lib l function args).ledger =
        { l with
          state := Function.update l.state (lib.ToLower a0)
            (Doc.ToJson lib ⟨a1, a2, a3, a4, a5⟩) }) := by
  by_cases hr : function = "read"
  · subst hr
    rw [Invoke_read]
    exact Or.inl (read_ledger lib l args)
  · by_cases hc : function = "create"
    · subst hc
      rw [Invoke_create]
      rcases create_effect lib l args with h | h
      · exact Or.inl h
      · exact Or.inr ⟨rfl, h⟩
    · by_cases hs : function = "search"
      · subst hs
        rw [Invoke_search]
        exact Or.inl (search_ledger lib l args)
      · left
        simp [Invoke, hr, hc, hs]

/-- A key that holds a value keeps it through any sequence of calls. -/
theorem runCalls_state_some (lib : GoLib) (calls : List Call) (l : Ledger)
    (k v : String) (h : l.state k = some v) :
    (runCalls lib l calls).state k = some v := by
  induction calls generalizing l with
  | nil => exact h
  | cons c cs ih =>
    simp only [runCalls]
    apply ih
    rcases Invoke_effect lib l c.function c.args with he | ⟨_, a0, a1, a2, a3, a4, a5, _, _, hs, _, hl⟩
    · rw [he]
      exact h
    · rw [hl]
      have hne : k ≠ lib.ToLower a0 := by
        intro hk
        rw [hk, hs] at h
        exact Option.noConfusion h
      simp [Function.update, hne, h]

/-- A key that holds no value stays absent through a sequence of calls in
which no `create` for that key answers 201. -/
theorem runCalls_state_none (lib : GoLib) (calls : List Call) (l : Ledger) (k : String)
    (h : l.state k = none)
    (hno : ∀ p ∈ runTrace lib l calls, p.1.function = "create" →
      ∀ a0, p.1.args[0]? = some a0 → lib.ToLower a0 = k →
        p.2.response.map Response.Status ≠ some 201) :
    (runCalls lib l calls).state k = none := by
  induction calls generalizing l with
  | nil => exact h
  | cons c cs ih =>
    simp only [runCalls]
    simp only [runTrace, List.mem_cons] at hno
    apply ih
    · rcases Invoke_effect lib l c.function c.args with he | ⟨hf, a0, a1, a2, a3, a4, a5, h0, _, _, hr, hl⟩
      · rw [he]
        exact h
      · rw [hl]
        have hne : k ≠ lib.ToLower a0 := by
          intro hk
          have := hno (c, Invoke lib l c.function c.args) (Or.inl rfl) hf a0 h0 hk.symm
          apply this
          simp [hr]
        simp [Function.update, hne, h]
    · intro p hp
      exact hno p (Or.inr hp)

/-! ## The JSON text of a document -/

/-- Reading what `json.Marshal` writes for one character gives that
character back. -/
theorem unquoteFrom_escapeChar (short : Bool) (c : Char) (rest : List Char) :
    unquoteFrom .plain (jsonEscapeChar short c ++ rest) =
      (unquoteFrom .plain rest).map (fun r => c :: r) := by
  by_cases hascii : c.toNat < 128
  · have hc : c = Char.ofNat c.toNat := (Char.ofNat_toNat c).symm
    generalize c.toNat = n at hascii hc
    subst hc
    interval_cases n <;> cases short <;> rfl
  · have hne : ∀ d : Char, d.toNat < 128 → c ≠ d := by
      intro d hd h
      rw [h] at hascii
      exact hascii hd
    by_cases hsep : c = Char.ofNat 8232 ∨ c = Char.ofNat 8233
    · rcases hsep with h | h <;> subst h <;> cases short <;> rfl
    · have h32 : ¬ c.toNat < 32 := by omega
      have hq : c ≠ quoteChar := hne _ (by decide)
      have hb : c ≠ backslashChar := hne _ (by decide)
      have hesc : jsonEscapeChar short c = [c] := by
        unfold jsonEscapeChar
        rw [if_neg (by rintro (h | h); exact hq h; exact hb h),
          if_neg (hne _ (by decide)), if_neg (hne _ (by decide)), if_neg (hne _ (by decide)),
          if_neg (fun h => hne _ (by decide) h.2), if_neg (fun h => hne _ (by decide) h.2),
          if_neg (by
            rintro (h | h | h | h)
            · exact h32 h
            · exact hne _ (by decide) h
            · exact hne _ (by decide) h
            · exact hne _ (by decide) h),
          if_neg hsep]
      rw [hesc, List.singleton_append, unquoteFrom, if_neg hq, if_neg hb, if_neg h32]

/-- Reading what `json.Marshal` writes for a text gives the text back. -/
theorem unquoteFrom_escapeChars (short : Bool) (cs : List Char) :
    unquoteFrom .plain (jsonEscapeChars short cs) = some cs := by
  induction cs with
  | nil => rfl
  | cons c cs ih =>
    rw [jsonEscapeChars, unquoteFrom_escapeChar, ih]
    rfl

theorem dropText_append (p s : List Char) : dropText p (p ++ s) = some s := by
  induction p with
  | nil => cases s <;> rfl
  | cons c cs ih => simp [dropText, ih]

theorem readLiteral_of_unquote (m : UnquoteMode) (b f rest : List Char)
    (h : unquoteFrom m b = some f) :
    readLiteral m (b ++ quoteChar :: rest) = some (f, rest) := by
  induction b generalizing m f with
  | nil =>
    cases m with
    | plain =>
      simp only [unquoteFrom, Option.some.injEq] at h
      subst h
      simp [readLiteral]
    | escape => simp [unquoteFrom] at h
    | hex k acc => simp [unquoteFrom] at h
  | cons c cs ih =>
    cases m with
    | plain =>
      simp only [unquoteFrom] at h
      simp only [List.cons_append, readLiteral]
      split at h
      · exact Option.noConfusion h
      · rename_i hq
        rw [if_neg hq]
        split at h
        · rename_i hb
          rw [if_pos hb]
          exact ih _ _ h
        · rename_i hb
          rw [if_neg hb]
          split at h
          · exact Option.noConfusion h
          · rename_i h32
            rw [if_neg h32]
            cases hu : unquoteFrom .plain cs with
            | none => simp [hu] at h
            | some g =>
              simp only [hu, Option.map_some', Option.some.injEq] at h
              subst h
              simp [ih _ _ hu]
    | escape =>
      simp only [unquoteFrom] at h
      simp only [List.cons_append, readLiteral]
      split at h
      · rename_i hu
        rw [if_pos hu]
        exact ih _ _ h
      · rename_i hu
        rw [if_neg hu]
        cases hs : shortEscape c with
        | none => simp [hs] at h
        | some x =>
          simp only [hs, Option.some_bind] at h ⊢
          cases hq : unquoteFrom .plain cs with
          | none => simp [hq] at h
          | some g =>
            simp only [hq, Option.map_some', Option.some.injEq] at h
            subst h
            simp [ih _ _ hq]
    | hex k acc =>
      cases k with
      | zero => simp [unquoteFrom] at h
      | succ k =>
        simp only [unquoteFrom] at h
        simp only [List.cons_append, readLiteral]
        cases hv : hexValue c with
        | none => simp [hv] at h
        | some v =>
          simp only [hv, Option.some_bind] at h ⊢
          split at h
          · rename_i hk
            rw [if_pos hk]
            cases hcu : codeUnit (acc * 16 + v) with
            | none => simp [hcu] at h
            | some x =>
              simp only [hcu, Option.some_bind] at h ⊢
              cases hq : unquoteFrom .plain cs with
              | none => simp [hq] at h
              | some g =>
                simp only [hq, Option.map_some', Option.some.injEq] at h
                subst h
                simp [ih _ _ hq]
          · rename_i hk
            rw [if_neg hk]
            exact ih _ _ h

theorem readMember_of_unquote (lead b f : String) (rest : List Char)
    (h : jsonUnquote b = some f) :
    readMember lead (lead.data ++ (b.data ++ quoteChar :: rest)) = some (f, rest) := by
  unfold jsonUnquote at h
  cases hu : unquoteFrom .plain b.data with
  | none => simp [hu] at h
  | some g =>
    simp only [hu, Option.map_some', Option.some.injEq] at h
    subst h
    simp [readMember, dropText_append, readLiteral_of_unquote _ _ _ rest hu]

theorem jsonObject_data (b1 b2 b3 b4 b5 : String) :
    (jsonObject b1 b2 b3 b4 b5).data =
      ("\x7b\"text\":\"" : String).data ++ (b1.data ++ quoteChar ::
        ((",\"review\":\"" : String).data ++ (b2.data ++ quoteChar ::
          ((",\"name\":\"" : String).data ++ (b3.data ++ quoteChar ::
            ((",\"location\":\"" : String).data ++ (b4.data ++ quoteChar ::
              ((",\"rating\":\"" : String).data ++ (b5.data ++ quoteChar ::
                [Char.ofNat 125]))))))))) := by
  simp only [jsonObject, String.data_append, List.append_assoc]
  rfl

/-- The sample reader reads an object of string literals as the document of
the texts they stand for. -/
theorem escapingUnmarshal_object (b1 b2 b3 b4 b5 f1 f2 f3 f4 f5 : String) (d0 : Doc)
    (h1 : jsonUnquote b1 = some f1) (h2 : jsonUnquote b2 = some f2)
    (h3 : jsonUnquote b3 = some f3) (h4 : jsonUnquote b4 = some f4)
    (h5 : jsonUnquote b5 = some f5) :
    escapingUnmarshal (jsonObject b1 b2 b3 b4 b5) d0 = ⟨f1, f2, f3, f4, f5⟩ := by
  unfold escapingUnmarshal
  rw [jsonObject_data]
  simp only [readMember_of_unquote _ _ _ _ h1, readMember_of_unquote _ _ _ _ h2,
    readMember_of_unquote _ _ _ _ h3, readMember_of_unquote _ _ _ _ h4,
    readMember_of_unquote _ _ _ _ h5, Option.some_bind, if_true, Option.getD_some]

/-- The string literal `json.Marshal` writes for a text stands for that
text. -/
theorem jsonUnquote_escape (short : Bool) (s : String) :
    jsonUnquote (jsonEscape short s) = some s := by
  simp only [jsonUnquote, jsonEscape, unquoteFrom_escapeChars]
  rfl

/-! ## Create and read -/

/-- Counterexample for C1: on a store in which the key is absent and every
write succeeds but the lookup reports an error, `create("AbC", …)` answers
409, not 201; and after a `create` that answered 201, a `read("abc")` on a
store with the state that `create` left, whose lookup reports an error,
answers 404, not 200. -/
theorem create_read_lookup_error :
    lookupErrorLedger.state (sampleLib.ToLower "AbC") = none ∧
    (∀ k v, (lookupErrorLedger.PutState k v).2 = none) ∧
    (Invoke sampleLib lookupErrorLedger "create"
      ["AbC", "Widget", "Great!", "Alice", "NY", "5"]).response =
        some { Status := 409, Message := "Text Exists", Payload := none } ∧
    (Invoke sampleLib sampleLedger "create"
      ["AbC", "Widget", "Great!", "Alice", "NY", "5"]).response =
        some { Status := 201, Message := "Text Created", Payload := none } ∧
    (Invoke sampleLib
      { (Invoke sampleLib sampleLedger "create"
          ["AbC", "Widget", "Great!", "Alice", "NY", "5"]).ledger with
        getError := fun _ => some "ledger unavailable" }
      "read" ["abc"]).response =
        some { Status := 404, Message := "Not Found", Payload := none } := by
  refine ⟨rfl, fun _ _ => rfl, by decide, by decide, by decide⟩

/-- C1 (amended): create/read round trip with key folding.  On a store whose
lookup of the folded `id` comes back with no error and no value and on which
the write of the encoded document succeeds, `Invoke create(id, text, review,
name, location, rating)` answers 201; and for every `id'` with the same folded
form, a following `Invoke read(id')`, run on any store that has the state
`create` left and whose lookup reports no error, answers 200 "OK" with the
stored bytes as payload, which `Doc.FromJson` decodes, into any receiver, to
the five strings given to `create`.  The strings are valid UTF-8 texts.  Of
the JSON library two facts are used: `json.Marshal` writes the document as
`marshalText` says, and `json.Unmarshal` reads an object of five string
literals as the document of the texts they stand for; that the literal written
for a text stands for that text is proved. -/
theorem create_read_roundtrip (lib : GoLib) (short : Bool) (l l2 : Ledger)
    (id id' text review name location rating : String)
    (habsent : l.GetState (lib.ToLower id) = (none, none))
    (hwrite : (l.PutState (lib.ToLower id)
      (Doc.ToJson lib ⟨text, review, name, location, rating⟩)).2 = none)
    (hfold : lib.ToLower id' = lib.ToLower id)
    (hstate : l2.state =
      (Invoke lib l "create" [id, text, review, name, location, rating]).ledger.state)
    (hlookup : (l2.GetState (lib.ToLower id')).2 = none)
    (hmarshal : lib.jsonMarshal ⟨text, review, name, location, rating⟩ =
      marshalText short ⟨text, review, name, location, rating⟩)
    (hunmarshal : ∀ (b1 b2 b3 b4 b5 f1 f2 f3 f4 f5 : String) (d0 : Doc),
      jsonUnquote b1 = some f1 → jsonUnquote b2 = some f2 → jsonUnquote b3 = some f3 →
      jsonUnquote b4 = some f4 → jsonUnquote b5 = some f5 →
      lib.jsonUnmarshal (jsonObject b1 b2 b3 b4 b5) d0 = ⟨f1, f2, f3, f4, f5⟩) :
    (Invoke lib l "create" [id, text, review, name, location, rating]).response =
      some { Status := 201, Message := "Text Created", Payload := none } ∧
    (Invoke lib l2 "read" [id']).response =
      some { Status := 200, Message := "OK",
             Payload := some (lib.jsonMarshal ⟨text, review, name, location, rating⟩) } ∧
    ∀ d0, Doc.FromJson lib d0 (some (lib.jsonMarshal ⟨text, review, name, location, rating⟩)) =
      ⟨text, review, name, location, rating⟩ := by
  simp only [Ledger.GetState, Prod.mk.injEq] at habsent
  have hp : l.putError (lib.ToLower id)
      (Doc.ToJson lib ⟨text, review, name, location, rating⟩) = none := by
    cases hq : l.putError (lib.ToLower id)
        (Doc.ToJson lib ⟨text, review, name, location, rating⟩) with
    | none => rfl
    | some e => simp [Ledger.PutState, hq] at hwrite
  have hcreate : Invoke lib l "create" [id, text, review, name, location, rating] =
      ⟨{ l with
          state := Function.update l.state (lib.ToLower id)
            (Doc.ToJson lib ⟨text, review, name, location, rating⟩) },
        [.getState (lib.ToLower id),
          .putState (lib.ToLower id) (Doc.ToJson lib ⟨text, review, name, location, rating⟩)],
        some { Status := 201, Message := "Text Created", Payload := none }⟩ := by
    rw [Invoke_create,
      create_six_write lib l id text review name location rating ⟨habsent.2, habsent.1⟩, hp]
  rw [hcreate] at hstate ⊢
  refine ⟨rfl, ?_, ?_⟩
  · simp only [Ledger.GetState, hfold] at hlookup
    rw [Invoke_read, read_one]
    simp only [hstate, hfold, Function.update_same, Doc.ToJson]
    simp [hlookup]
  · intro d0
    show lib.jsonUnmarshal (lib.jsonMarshal ⟨text, review, name, location, rating⟩) d0 = _
    rw [hmarshal]
    exact hunmarshal _ _ _ _ _ _ _ _ _ _ d0 (jsonUnquote_escape short text)
      (jsonUnquote_escape short review) (jsonUnquote_escape short name)
      (jsonUnquote_escape short location) (jsonUnquote_escape short rating)

/-- Witness for C1 (amended): `create("AbC", …)` with fields that hold
quotes, a backslash, angle brackets, an ampersand, a line feed and a letter
outside ASCII, then `read("abc")`, with the sample library that escapes. -/
theorem create_read_roundtrip_witness :
    (Invoke escapingLib sampleLedger "create"
      ["AbC", "a \"fine\" <b>Widget</b>", "Great & good!\n", "Zoë \\ Alice", "NY", "5"]).response =
      some { Status := 201, Message := "Text Created", Payload := none } ∧
    (Invoke escapingLib
      (Invoke escapingLib sampleLedger "create"
        ["AbC", "a \"fine\" <b>Widget</b>", "Great & good!\n", "Zoë \\ Alice", "NY", "5"]).ledger
      "read" ["abc"]).response =
      some { Status := 200, Message := "OK",
             Payload := some (escapingLib.jsonMarshal
               ⟨"a \"fine\" <b>Widget</b>", "Great & good!\n", "Zoë \\ Alice", "NY", "5"⟩) } ∧
    ∀ d0, Doc.FromJson escapingLib d0 (some (escapingLib.jsonMarshal
        ⟨"a \"fine\" <b>Widget</b>", "Great & good!\n", "Zoë \\ Alice", "NY", "5"⟩)) =
      ⟨"a \"fine\" <b>Widget</b>", "Great & good!\n", "Zoë \\ Alice", "NY", "5"⟩ :=
  create_read_roundtrip escapingLib true sampleLedger
    (Invoke escapingLib sampleLedger "create"
      ["AbC", "a \"fine\" <b>Widget</b>", "Great & good!\n", "Zoë \\ Alice", "NY", "5"]).ledger
    "AbC" "abc" "a \"fine\" <b>Widget</b>" "Great & good!\n" "Zoë \\ Alice" "NY" "5"
    rfl rfl (by decide) rfl rfl rfl escapingUnmarshal_object

/-- C3: duplicate create conflicts.  After a `create(id, …)` that answered
201 and any further sequence of calls, a `create(id', …)` whose `id'` has the
same folded form answers 409 "Text Exists" whatever its five fields are, makes
no write and leaves the store as it was; the key still holds the document of
the first `create`. -/
theorem create_duplicate_conflict (lib : GoLib) (l : Ledger) (calls : List Call)
    (id text review name location rating : String)
    (id' text' review' name' location' rating' : String)
    (hcreated : (Invoke lib l "create"
      [id, text, review, name, location, rating]).response.map Response.Status = some 201)
    (hfold : lib.ToLower id' = lib.ToLower id) :
    (Invoke lib
      (runCalls lib (Invoke lib l "create" [id, text, review, name, location, rating]).ledger
        calls)
      "create" [id', text', review', name', location', rating']) =
      ⟨runCalls lib (Invoke lib l "create" [id, text, review, name, location, rating]).ledger
          calls,
        [.getState (lib.ToLower id)], some (Error 409 "Text Exists")⟩ ∧
    (runCalls lib (Invoke lib l "create" [id, text, review, name, location, rating]).ledger
        calls).state (lib.ToLower id) =
      Doc.ToJson lib ⟨text, review, name, location, rating⟩ := by
  have hstate : (Invoke lib l "create"
      [id, text, review, name, location, rating]).ledger.state (lib.ToLower id) =
      some (lib.jsonMarshal ⟨text, review, name, location, rating⟩) := by
    rw [Invoke_create] at hcreated ⊢
    by_cases h : l.getError (lib.ToLower id) = none ∧ l.state (lib.ToLower id) = none
    · rw [create_six_write lib l id text review name location rating h] at hcreated ⊢
      cases hp : l.putError (lib.ToLower id)
          (Doc.ToJson lib ⟨text, review, name, location, rating⟩) with
      | none => simp [Doc.ToJson]
      | some e =>
        rw [hp] at hcreated
        simp [Error] at hcreated
    · rw [create_six_conflict lib l id text review name location rating h] at hcreated
      simp [Error] at hcreated
  have hkeep := runCalls_state_some lib calls _ _ _ hstate
  refine ⟨?_, by rw [hkeep]; rfl⟩
  rw [Invoke_create, ← hfold]
  apply create_six_conflict
  rw [hfold, hkeep]
  simp

/-- Witness for C3: `create("AbC", …)`, a `read` and a `search`, then
`create("aBC", …)` with other fields. -/
theorem create_duplicate_conflict_witness :
    (Invoke sampleLib
      (runCalls sampleLib (Invoke sampleLib sampleLedger "create"
          ["AbC", "Widget", "Great!", "Alice", "NY", "5"]).ledger
        [⟨"read", ["abc"]⟩, ⟨"search", ["^Wid"]⟩])
      "create" ["aBC", "Gadget", "Poor", "Bob", "LA", "1"]) =
      ⟨runCalls sampleLib (Invoke sampleLib sampleLedger "create"
          ["AbC", "Widget", "Great!", "Alice", "NY", "5"]).ledger
          [⟨"read", ["abc"]⟩, ⟨"search", ["^Wid"]⟩],
        [.getState (sampleLib.ToLower "AbC")], some (Error 409 "Text Exists")⟩ ∧
    (runCalls sampleLib (Invoke sampleLib sampleLedger "create"
          ["AbC", "Widget", "Great!", "Alice", "NY", "5"]).ledger
        [⟨"read", ["abc"]⟩, ⟨"search", ["^Wid"]⟩]).state (sampleLib.ToLower "AbC") =
      Doc.ToJson sampleLib ⟨"Widget", "Great!", "Alice", "NY", "5"⟩ :=
  create_duplicate_conflict sampleLib sampleLedger [⟨"read", ["abc"]⟩, ⟨"search", ["^Wid"]⟩]
    "AbC" "Widget" "Great!" "Alice" "NY" "5" "aBC" "Gadget" "Poor" "Bob" "LA" "1"
    (by decide) (by decide)

/-- Counterexample for C4: the lookup of "k" returns no error and a present
but empty value, and `read` answers 200 with that empty payload; so "404 if
and only if the lookup errors or returns an absent or empty value" fails. -/
theorem read_empty_value_not_404 :
    emptyValueLedger.GetState (sampleLib.ToLower "k") = (some "", none) ∧
    (read sampleLib emptyValueLedger ["k"]).response =
      some { Status := 200, Message := "OK", Payload := some "" } ∧
    ¬ ((read sampleLib emptyValueLedger ["k"]).response.map Response.Status = some 404 ↔
        ((emptyValueLedger.GetState (sampleLib.ToLower "k")).2 ≠ none ∨
          (emptyValueLedger.GetState (sampleLib.ToLower "k")).1 = none ∨
          (emptyValueLedger.GetState (sampleLib.ToLower "k")).1 = some "")) := by
  refine ⟨rfl, by decide, ?_⟩
  intro h
  have h404 := h.mpr (Or.inr (Or.inr rfl))
  revert h404
  decide

/-- C4 (amended): `read(id)` answers 404 "Not Found" with no payload if and
only if the lookup of the folded id returns an error or a nil (absent) value;
in every other case, a present but empty value included, it answers 200 "OK"
with the stored value as payload.  The store is left as it was. -/
theorem read_outcome (lib : GoLib) (l : Ledger) (id : String) :
    ((read lib l [id]).response.map Response.Status = some 404 ↔
      ((l.GetState (lib.ToLower id)).2 ≠ none ∨ (l.GetState (lib.ToLower id)).1 = none)) ∧
    (((l.GetState (lib.ToLower id)).2 ≠ none ∨ (l.GetState (lib.ToLower id)).1 = none) →
      (read lib l [id]).response = some { Status := 404, Message := "Not Found", Payload := none }) ∧
    (¬ ((l.GetState (lib.ToLower id)).2 ≠ none ∨ (l.GetState (lib.ToLower id)).1 = none) →
      (read lib l [id]).response =
        some { Status := 200, Message := "OK", Payload := (l.GetState (lib.ToLower id)).1 }) ∧
    (read lib l [id]).ledger = l := by
  rw [read_one]
  simp only [Ledger.GetState]
  by_cases h : l.getError (lib.ToLower id) ≠ none ∨ l.state (lib.ToLower id) = none
  · rw [if_pos h]
    simp [h, Error]
  · rw [if_neg h]
    simp [h]

/-- C5: read of a never-created key.  Starting from the empty store, after any
finite sequence of `Invoke` calls (any operation names, any argument lists),
`read(id)` answers 404 for every `id` such that no `create` of the sequence
whose first argument has the same folded form answered 201. -/
theorem read_never_created (lib : GoLib)
    (getError : String → Option String)
    (putError : String → Option String → Option String)
    (queryEngine : (String → Option String) → String → Except String (List (Option KV)))
    (calls : List Call) (id : String)
    (hno : ∀ p ∈ runTrace lib (Ledger.empty getError putError queryEngine) calls,
      p.1.function = "create" → ∀ a0, p.1.args[0]? = some a0 →
        lib.ToLower a0 = lib.ToLower id → p.2.response.map Response.Status ≠ some 201) :
    (Invoke lib (runCalls lib (Ledger.empty getError putError queryEngine) calls)
      "read" [id]).response = some (Error 404 "Not Found") := by
  have hstate := runCalls_state_none lib calls (Ledger.empty getError putError queryEngine)
    (lib.ToLower id) rfl hno
  rw [Invoke_read, read_one, if_pos (Or.inr hstate)]

/-- Witness for C5: after a `create` for "r1", a `read`, a `search`, an
unknown operation and a `create` for "R1" that conflicts, `read("R2")` on the
sample store answers 404. -/
theorem read_never_created_witness :
    (Invoke sampleLib
      (runCalls sampleLib (Ledger.empty (fun _ => none) (fun _ _ => none) (fun _ _ => .ok []))
        [⟨"create", ["r1", "Widget", "Great!", "Alice", "NY", "5"]⟩, ⟨"read", ["r1"]⟩,
          ⟨"search", ["^Wid"]⟩, ⟨"delete", ["r1"]⟩,
          ⟨"create", ["R1", "Gadget", "Poor", "Bob", "LA", "1"]⟩])
      "read" ["R2"]).response = some (Error 404 "Not Found") :=
  read_never_created sampleLib (fun _ => none) (fun _ _ => none) (fun _ _ => .ok [])
    [⟨"create", ["r1", "Widget", "Great!", "Alice", "NY", "5"]⟩, ⟨"read", ["r1"]⟩,
      ⟨"search", ["^Wid"]⟩, ⟨"delete", ["r1"]⟩,
      ⟨"create", ["R1", "Gadget", "Poor", "Bob", "LA", "1"]⟩]
    "R2" (by decide)

/-- C6: create outcome case analysis.  For every store and six arguments,
`create` answers 409 exactly when the probe of the folded id does not come
back as (nil error, nil value), in particular when the probe errors or
returns a present but empty value, and then it makes the lookup only and no
write; otherwise it calls `PutState` with the encoded document at the folded
id and answers 500 with the write's error text when the write fails, and 201
with no payload, the document now stored at the key, when it succeeds. -/
theorem create_outcome (lib : GoLib) (l : Ledger)
    (id text review name location rating : String) :
    ((create lib l [id, text, review, name, location, rating]).response.map
        Response.Status = some 409 ↔
      l.GetState (lib.ToLower id) ≠ (none, none)) ∧
    (l.GetState (lib.ToLower id) ≠ (none, none) →
      create lib l [id, text, review, name, location, rating] =
        ⟨l, [.getState (lib.ToLower id)],
          some { Status := 409, Message := "Text Exists", Payload := none }⟩) ∧
    ((l.GetState (lib.ToLower id)).2 ≠ none →
      (create lib l [id, text, review, name, location, rating]).response.map
        Response.Status = some 409) ∧
    ((l.GetState (lib.ToLower id)).1 = some "" →
      (create lib l [id, text, review, name, location, rating]).response.map
        Response.Status = some 409) ∧
    (l.GetState (lib.ToLower id) = (none, none) →
      (create lib l [id, text, review, name, location, rating]).calls =
        [.getState (lib.ToLower id),
          .putState (lib.ToLower id) (Doc.ToJson lib ⟨text, review, name, location, rating⟩)] ∧
      (∀ e, (l.PutState (lib.ToLower id)
          (Doc.ToJson lib ⟨text, review, name, location, rating⟩)).2 = some e →
        (create lib l [id, text, review, name, location, rating]).response =
          some { Status := 500, Message := e, Payload := none }) ∧
      ((l.PutState (lib.ToLower id)
          (Doc.ToJson lib ⟨text, review, name, location, rating⟩)).2 = none →
        (create lib l [id, text, review, name, location, rating]).response =
          some { Status := 201, Message := "Text Created", Payload := none } ∧
        (create lib l [id, text, review, name, location, rating]).ledger.state =
          Function.update l.state (lib.ToLower id)
            (Doc.ToJson lib ⟨text, review, name, location, rating⟩))) := by
  have hiff : l.GetState (lib.ToLower id) ≠ (none, none) ↔
      ¬ (l.getError (lib.ToLower id) = none ∧ l.state (lib.ToLower id) = none) := by
    simp only [Ledger.GetState, ne_eq, Prod.mk.injEq]
    tauto
  have hconf : l.GetState (lib.ToLower id) ≠ (none, none) →
      create lib l [id, text, review, name, location, rating] =
        ⟨l, [.getState (lib.ToLower id)],
          some { Status := 409, Message := "Text Exists", Payload := none }⟩ :=
    fun h => create_six_conflict lib l id text review name location rating (hiff.mp h)
  refine ⟨?_, hconf, ?_, ?_, ?_⟩
  · constructor
    · intro hs
      by_contra hn
      have hn' : l.getError (lib.ToLower id) = none ∧ l.state (lib.ToLower id) = none := by
        simp only [Ledger.GetState, Prod.mk.injEq] at hn
        exact ⟨hn.2, hn.1⟩
      rw [create_six_write lib l id text review name location rating hn'] at hs
      cases hp : l.putError (lib.ToLower id)
          (Doc.ToJson lib ⟨text, review, name, location, rating⟩) with
      | none =>
        rw [hp] at hs
        simp at hs
      | some e =>
        rw [hp] at hs
        simp [Error] at hs
    · intro h
      rw [hconf h]
      rfl
  · intro h
    rw [hconf]
    · rfl
    · intro hg
      rw [hg] at h
      exact h rfl
  · intro h
    rw [hconf]
    · rfl
    · intro hg
      rw [hg] at h
      exact Option.noConfusion h
  · intro h
    have hn' : l.getError (lib.ToLower id) = none ∧ l.state (lib.ToLower id) = none := by
      simp only [Ledger.GetState, Prod.mk.injEq] at h
      exact ⟨h.2, h.1⟩
    rw [create_six_write lib l id text review name location rating hn']
    cases hp : l.putError (lib.ToLower id)
        (Doc.ToJson lib ⟨text, review, name, location, rating⟩) with
    | none => simp [Ledger.PutState, hp]
    | some e => simp [Ledger.PutState, hp, Error]

/-- C7: the dispatcher rejects unknown operations.  For every operation name
other than exactly "read", "create" and "search" and every argument list,
`Invoke` answers 501 with the fixed message and no payload, makes no call on
the stub (no read, write or query) and leaves the store as it was. -/
theorem Invoke_unknown (lib : GoLib) (l : Ledger) (function : String) (args : List String)
    (hread : function ≠ "read") (hcreate : function ≠ "create")
    (hsearch : function ≠ "search") :
    Invoke lib l function args =
      ⟨l, [], some ⟨501,
        "Invalid method! Valid methods are 'create|update|delete|exist|read|history|search'!",
        none⟩⟩ := by
  simp [Invoke, hread, hcreate, hsearch, Error]

/-- Witness for C7: the operation names "Read", "READ", "update", "delete"
and the empty name are none of "read", "create", "search". -/
theorem Invoke_unknown_witness :
    (Invoke sampleLib sampleLedger "Read" ["r1"] =
      ⟨sampleLedger, [], some ⟨501,
        "Invalid method! Valid methods are 'create|update|delete|exist|read|history|search'!",
        none⟩⟩) ∧
    (Invoke sampleLib sampleLedger "READ" ["r1"]).response.map Response.Status = some 501 ∧
    (Invoke sampleLib sampleLedger "update" ["r1", "Widget"]).response.map Response.Status
      = some 501 ∧
    (Invoke sampleLib sampleLedger "delete" ["r1"]).response.map Response.Status = some 501 ∧
    (Invoke sampleLib sampleLedger "" []).response.map Response.Status = some 501 :=
  ⟨Invoke_unknown sampleLib sampleLedger "Read" ["r1"] (by decide) (by decide) (by decide),
    by rw [Invoke_unknown sampleLib sampleLedger "READ" ["r1"]
      (by decide) (by decide) (by decide)]; rfl,
    by rw [Invoke_unknown sampleLib sampleLedger "update" ["r1", "Widget"]
      (by decide) (by decide) (by decide)]; rfl,
    by rw [Invoke_unknown sampleLib sampleLedger "delete" ["r1"]
      (by decide) (by decide) (by decide)]; rfl,
    by rw [Invoke_unknown sampleLib sampleLedger "" []
      (by decide) (by decide) (by decide)]; rfl⟩

/-! ## The size cap of `Success` -/

theorem utf8ByteSize_go_replicate (n : Nat) :
    String.utf8ByteSize.go (List.replicate n (Char.ofNat 97)) = n := by
  induction n with
  | zero => rfl
  | succ k ih =>
    rw [List.replicate_succ, String.utf8ByteSize.go, ih]
    rfl

theorem bigText_size : bigText.utf8ByteSize = 1048577 := by
  unfold bigText
  rw [String.utf8ByteSize]
  exact utf8ByteSize_go_replicate 1048577

/-- C2 (the code at the failing input): `Success` tests the length of the
message `doc`, not of the payload.  A payload one byte over 1 MiB passed with
the message "OK" comes back unchanged under the given status 200; and a
one-byte payload passed with a message over 1 MiB is turned into the 500
envelope although the payload is within the cap. -/
theorem Success_cap_tests_message :
    1048576 < bigText.utf8ByteSize ∧
    Success 200 "OK" (some bigText) =
      { Status := 200, Message := "OK", Payload := some bigText } ∧
    ("x" : String).utf8ByteSize ≤ 1048576 ∧
    Success 200 bigText (some "x") =
      { Status := 500, Message := "Maximum return payload length of 1MB exceeded!",
        Payload := none } := by
  refine ⟨?_, Success_OK 200 (some bigText), by decide, ?_⟩
  · rw [bigText_size]
    decide
  · unfold Success
    rw [if_pos (by rw [bigText_size]; decide)]
    rfl

/-! ## Every call and its envelope -/

theorem writeResults_none_iff (lib : GoLib) (it : List (Option KV)) (buffer : String) :
    (writeResults lib it buffer).2 = none ↔ none ∈ it := by
  induction it generalizing buffer with
  | nil => simp [writeResults]
  | cons x xs ih =>
    cases x with
    | none => simp [writeResults]
    | some kv =>
      simp only [writeResults, List.mem_cons]
      rw [ih]
      simp

theorem read_response_none_iff (lib : GoLib) (l : Ledger) (args : List String) :
    (read lib l args).response = none ↔ args.length < 1 := by
  cases args with
  | nil => simp [read]
  | cons a0 rest =>
    simp only [read, List.getElem?_cons_zero, List.length_cons]
    split <;> simp

theorem create_response_none_iff (lib : GoLib) (l : Ledger) (args : List String) :
    (create lib l args).response = none ↔ args.length < 6 := by
  rcases args with _ | ⟨a0, _ | ⟨a1, _ | ⟨a2, _ | ⟨a3, _ | ⟨a4, _ | ⟨a5, rest⟩⟩⟩⟩⟩⟩
  · simp [create]
  · simp [create]
  · simp [create]
  · simp [create]
  · simp [create]
  · simp [create]
  · simp only [create, List.getElem?_cons_zero, List.getElem?_cons_succ, List.length_cons]
    split
    · simp
    · split <;> simp

theorem search_response_none_iff (lib : GoLib) (l : Ledger) (args : List String) :
    (search lib l args).response = none ↔
      (args.length < 1 ∨ ∃ a0 it, args[0]? = some a0 ∧
        l.GetQueryResult (queryString a0) = .ok it ∧ none ∈ it) := by
  cases args with
  | nil => simp [search]
  | cons a0 rest =>
    simp only [search, List.getElem?_cons_zero, List.length_cons]
    cases hq : l.GetQueryResult (queryString a0) with
    | error e => simp [hq]
    | ok it =>
      dsimp only
      cases hw : (writeResults lib it "\x7b \"values\": [").2 with
      | none =>
        have := (writeResults_none_iff lib it _).mp hw
        simp [hq, this]
      | some buffer =>
        have hnot : none ∉ it := by
          intro hmem
          rw [(writeResults_none_iff lib it _).mpr hmem] at hw
          exact Option.noConfusion hw
        simp [hq, hnot]

/-- C8 (the code at the failing input): `Invoke` with "read" and the empty
argument list yields no envelope, since the access `args[0]` is out of range
and the handler checks no argument count; so do "create" with five arguments
and "search" with none. -/
theorem Invoke_short_args_no_envelope :
    (¬ ∃ r, (Invoke sampleLib sampleLedger "read" []).response = some r) ∧
    (Invoke sampleLib sampleLedger "create" ["r1", "Widget", "Great!", "Alice", "NY"]).response
      = none ∧
    (Invoke sampleLib sampleLedger "search" []).response = none := by
  refine ⟨?_, by decide, by decide⟩
  rintro ⟨r, h⟩
  have h0 : (Invoke sampleLib sampleLedger "read" []).response = none := by decide
  rw [h0] at h
  exact Option.noConfusion h

/-- Exactly when `Invoke` yields no envelope: "read" with an empty argument
list, "create" with fewer than six arguments, "search" with an empty argument
list, and "search" whose query succeeded but whose iterator hands back a nil
result from a failing `Next` (the error of `Next` is discarded and `it.Key`
dereferences nil).  In every other case, unknown operation names with any
argument list included, it returns one response envelope. -/
theorem Invoke_response_none_iff (lib : GoLib) (l : Ledger) (function : String)
    (args : List String) :
    (Invoke lib l function args).response = none ↔
      ((function = "read" ∧ args.length < 1) ∨
       (function = "create" ∧ args.length < 6) ∨
       (function = "search" ∧ (args.length < 1 ∨ ∃ a0 it, args[0]? = some a0 ∧
          l.GetQueryResult (queryString a0) = .ok it ∧ none ∈ it))) := by
  have h1 : ¬ ("create" = "read") := by decide
  have h2 : ¬ ("search" = "read") := by decide
  have h3 : ¬ ("search" = "create") := by decide
  by_cases hr : function = "read"
  · subst hr
    rw [Invoke_read, read_response_none_iff]
    simp [Ne.symm h1, Ne.symm h2]
  · by_cases hc : function = "create"
    · subst hc
      rw [Invoke_create, create_response_none_iff]
      simp [h1, Ne.symm h3]
    · by_cases hs : function = "search"
      · subst hs
        rw [Invoke_search, search_response_none_iff]
        simp [h2, h3]
      · simp [Invoke, hr, hc, hs]

/-! ## Search -/

/-- Counterexample for C9: on the sample store the query of `search("^Wid")`
succeeds with zero results and the payload is the text `{ "values": []}`,
with a blank after the opening brace; it is not the text `{"values": []}`. -/
theorem search_empty_payload_has_blank :
    sampleLedger.GetQueryResult (queryString "^Wid") = .ok [] ∧
    (search sampleLib sampleLedger ["^Wid"]).response =
      some { Status := 200, Message := "OK", Payload := some "\x7b \"values\": []\x7d" } ∧
    (search sampleLib sampleLedger ["^Wid"]).response ≠
      some { Status := 200, Message := "OK", Payload := some "\x7b\"values\": []\x7d" } := by
  refine ⟨rfl, by decide, by decide⟩

/-- C9 (amended): for every pattern, when the store's query succeeds and
yields zero results, `search` answers 200 "OK" with a payload that is exactly
the text `{ "values": []}` (one blank after the opening brace); it asks the
iterator once whether a result is left, closes it, and leaves the store as it
was. -/
theorem search_no_results (lib : GoLib) (l : Ledger) (pattern : String)
    (hquery : l.GetQueryResult (queryString pattern) = .ok []) :
    search lib l [pattern] =
      ⟨l, [.getQueryResult (queryString pattern), .hasNext, .close],
        some { Status := 200, Message := "OK", Payload := some "\x7b \"values\": []\x7d" }⟩ := by
  simp only [search, List.getElem?_cons_zero, hquery, writeResults, Success_OK]
  rfl

/-- Witness for C9 (amended): `search("^Wid")` on the sample store. -/
theorem search_no_results_witness :
    search sampleLib sampleLedger ["^Wid"] =
      ⟨sampleLedger, [.getQueryResult (queryString "^Wid"), .hasNext, .close],
        some { Status := 200, Message := "OK", Payload := some "\x7b \"values\": []\x7d" }⟩ :=
  search_no_results sampleLib sampleLedger "^Wid" rfl

/-- The literal read after the opening quote ends at the first quote when no
quote and no backslash comes before it. -/
theorem scanStringLiteral_plain (cs rest : List Char)
    (h : ∀ c ∈ cs, c ≠ quoteChar ∧ c ≠ backslashChar) :
    scanStringLiteral (cs ++ quoteChar :: rest) = some (cs, rest) := by
  induction cs with
  | nil =>
    cases rest <;> simp [scanStringLiteral]
  | cons c cs ih =>
    have hc := h c (List.mem_cons_self c cs)
    have ih' := ih (fun d hd => h d (List.mem_cons_of_mem c hd))
    cases hrest : cs ++ quoteChar :: rest with
    | nil => simp at hrest
    | cons e t =>
      rw [List.cons_append, hrest, scanStringLiteral, if_neg hc.1, if_neg hc.2, ← hrest, ih']
      rfl

theorem Replace_data (s : String) (old new : Char) :
    (Replace s old new).data = s.data.map (fun c => if c = old then new else c) := rfl

/-- The sanitised pattern holds no quote. -/
theorem Replace_quote_free (s : String) : ∀ c ∈ (Replace s quoteChar dotChar).data, c ≠ quoteChar := by
  intro c hc
  rw [Replace_data, List.mem_map] at hc
  obtain ⟨d, _, hd⟩ := hc
  by_cases hq : d = quoteChar
  · rw [if_pos hq] at hd
    rw [← hd]
    decide
  · rw [if_neg hq] at hd
    rw [← hd]
    exact hq

/-- The second `Replace` of `search` changes nothing. -/
theorem Replace_twice (s : String) :
    Replace (Replace s quoteChar dotChar) quoteChar dotChar = Replace s quoteChar dotChar := by
  have h : ∀ cs : List Char, (∀ c ∈ cs, c ≠ quoteChar) →
      cs.map (fun c => if c = quoteChar then dotChar else c) = cs := by
    intro cs hcs
    induction cs with
    | nil => rfl
    | cons c cs ih =>
      rw [List.map_cons, if_neg (hcs c (List.mem_cons_self c cs)),
        ih (fun d hd => hcs d (List.mem_cons_of_mem c hd))]
  show String.mk _ = String.mk _
  rw [Replace_data, h _ (fun c hc => Replace_quote_free s c (by rw [Replace_data]; exact hc))]

/-- For a pattern without a backslash the claim of C10 holds: read as JSON
text, the literal opened by the template ends at the template's closing quote,
its content is the sanitised pattern and the rest of the query is the
template's fixed text. -/
theorem search_literal_closed_of_no_backslash (pattern : String)
    (h : backslashChar ∉ pattern.data) :
    scanStringLiteral ((queryString pattern).data.drop queryHead.data.length) =
      some ((Replace pattern quoteChar dotChar).data, queryTail.data.tail) := by
  have hq : (queryString pattern).data =
      queryHead.data ++ ((Replace pattern quoteChar dotChar).data ++ queryTail.data) := by
    simp only [queryString, Replace_twice, String.data_append, List.append_assoc]
  rw [hq, List.drop_left]
  have ht : queryTail.data = quoteChar :: queryTail.data.tail := by decide
  rw [ht]
  apply scanStringLiteral_plain
  intro c hc
  refine ⟨Replace_quote_free pattern c hc, ?_⟩
  rw [Replace_data, List.mem_map] at hc
  obtain ⟨d, hd, hdc⟩ := hc
  intro hb
  by_cases hdq : d = quoteChar
  · rw [if_pos hdq] at hdc
    rw [← hdc] at hb
    revert hb
    decide
  · rw [if_neg hdq] at hdc
    rw [hdc] at hd
    rw [hb] at hd
    exact h hd

/-- C10 (the code at the failing input): for the pattern made of one
backslash the sanitised pattern is that backslash, the query reads
`… {"$regex": "\"}}, "fields": …`, and the literal opened after `"$regex": `
is not closed by the template's quote, which the backslash escapes: its
content is the six characters `\"}}, ` and it ends at the quote that opens
`"fields"`; the rest of the query is not the template's fixed text. -/
theorem search_backslash_breaks_literal :
    Replace (Replace "\\" quoteChar dotChar) quoteChar dotChar = "\\" ∧
    scanStringLiteral ((queryString "\\").data.drop queryHead.data.length) =
      some ("\\\"\x7d\x7d, ".data,
        "fields\": [\"text\",\"review\",\"name\",\"location\",\"rating\"], \"limit\":99\x7d".data) ∧
    scanStringLiteral ((queryString "\\").data.drop queryHead.data.length) ≠
      some ((Replace "\\" quoteChar dotChar).data, queryTail.data.tail) := by
  refine ⟨by decide, by decide, by decide⟩

/-! ## The query string -/

theorem Replace_length (s : String) (old new : Char) :
    (Replace s old new).length = s.length := by
  show (s.data.map _).length = s.data.length
  exact List.length_map _ _

theorem utf8Len_Replace_quote (cs : List Char) :
    String.utf8Len (cs.map (fun c => if c = quoteChar then dotChar else c)) =
      String.utf8Len cs := by
  induction cs with
  | nil => rfl
  | cons c cs ih =>
    rw [List.map_cons, String.utf8Len_cons, String.utf8Len_cons, ih]
    by_cases hc : c = quoteChar
    · rw [if_pos hc, hc]
      rfl
    · rw [if_neg hc]

/-- C11: query construction and the redundant double pass.  For every pattern
`p` the first stub call of `search` is `GetQueryResult` with the fixed
template around `S`, where `S` is `p` after one replacement of every quote by
a dot; replacing twice gives the same `S`; `S` has as many characters and as
many bytes as `p`, holds no quote, has a dot wherever `p` has a quote and the
character of `p` everywhere else. -/
theorem search_query_construction (lib : GoLib) (l : Ledger) (p : String) :
    (search lib l [p]).calls.head? =
      some (.getQueryResult
        ("\x7b\"selector\": \x7b\"text\": \x7b\"$regex\": \"" ++ Replace p quoteChar dotChar ++
          "\"\x7d\x7d, \"fields\": [\"text\",\"review\",\"name\",\"location\",\"rating\"], \"limit\":99\x7d")) ∧
    Replace (Replace p quoteChar dotChar) quoteChar dotChar = Replace p quoteChar dotChar ∧
    (Replace p quoteChar dotChar).length = p.length ∧
    (Replace p quoteChar dotChar).utf8ByteSize = p.utf8ByteSize ∧
    (∀ c ∈ (Replace p quoteChar dotChar).data, c ≠ quoteChar) ∧
    (∀ (i : Nat) (c : Char), p.data[i]? = some c →
      (Replace p quoteChar dotChar).data[i]? = some (if c = quoteChar then dotChar else c)) := by
  refine ⟨?_, Replace_twice p, Replace_length p _ _, ?_, Replace_quote_free p, ?_⟩
  · have hq : queryString p =
        "\x7b\"selector\": \x7b\"text\": \x7b\"$regex\": \"" ++ Replace p quoteChar dotChar ++
          "\"\x7d\x7d, \"fields\": [\"text\",\"review\",\"name\",\"location\",\"rating\"], \"limit\":99\x7d" := by
      simp only [queryString, Replace_twice]
      rfl
    rw [← hq]
    simp only [search, List.getElem?_cons_zero]
    cases l.GetQueryResult (queryString p) with
    | error e => rfl
    | ok it =>
      dsimp only
      split <;> rfl
  · show String.utf8ByteSize (String.mk _) = String.utf8ByteSize p
    rw [String.utf8ByteSize_mk, utf8Len_Replace_quote]
    rfl
  · intro i c hc
    rw [Replace_data, List.getElem?_map, hc]
    rfl

/-! ## Initialisation -/

/-- C14: initialisation.  `Init` answers 200 "OK" with no payload on the empty
argument list and 400 with no payload on every list with one or more
arguments; in both cases it makes no call on the stub and the store is left
as it was. -/
theorem Init_outcome (l : Ledger) :
    Init l [] = ⟨l, [], some { Status := 200, Message := "OK", Payload := none }⟩ ∧
    ∀ (a : String) (rest : List String),
      Init l (a :: rest) =
        ⟨l, [], some { Status := 400,
                       Message := "Init: Incorrect number of arguments; no arguments were expected.",
                       Payload := none }⟩ := by
  constructor
  · simp [Init, Success_OK]
  · intro a rest
    simp [Init, Error]

/-! ## Immutability -/

/-- C12: documents are immutable once created.  In every store, the reachable
ones included, a key `k` that holds the value `v` still holds exactly `v`
after any further finite sequence of `Invoke` calls, whatever their operation
names and argument lists and whether they succeed, fail or abort. -/
theorem documents_immutable (lib : GoLib) (l : Ledger) (calls : List Call) (k v : String)
    (hholds : l.state k = some v) :
    (runCalls lib l calls).state k = some v :=
  runCalls_state_some lib calls l k v hholds

/-- Witness for C12: after `create("r1", …)` on the sample store the key "r1"
holds the encoded document, and it still does after a second `create` for
"R1" with other fields, a `read`, a `search` and an unknown operation. -/
theorem documents_immutable_witness :
    (runCalls sampleLib
      (Invoke sampleLib sampleLedger "create"
        ["r1", "Widget", "Great!", "Alice", "NY", "5"]).ledger
      [⟨"create", ["R1", "Gadget", "Poor", "Bob", "LA", "1"]⟩, ⟨"read", ["r1"]⟩,
        ⟨"search", ["^Wid"]⟩, ⟨"delete", ["r1"]⟩]).state "r1" =
      some (plainMarshal ⟨"Widget", "Great!", "Alice", "NY", "5"⟩) :=
  documents_immutable sampleLib
    (Invoke sampleLib sampleLedger "create" ["r1", "Widget", "Great!", "Alice", "NY", "5"]).ledger
    [⟨"create", ["R1", "Gadget", "Poor", "Bob", "LA", "1"]⟩, ⟨"read", ["r1"]⟩,
      ⟨"search", ["^Wid"]⟩, ⟨"delete", ["r1"]⟩]
    "r1" (plainMarshal ⟨"Widget", "Great!", "Alice", "NY", "5"⟩) (by decide)

/-! ## Search: frame and iterator release -/

/-- The loop of `search` only asks the iterator for its next result. -/
theorem writeResults_calls (lib : GoLib) (it : List (Option KV)) (buffer : String) :
    ∀ c ∈ (writeResults lib it buffer).1, c = StubCall.hasNext ∨ c = StubCall.next := by
  induction it generalizing buffer with
  | nil => simp [writeResults]
  | cons x xs ih =>
    cases x with
    | none => simp [writeResults]
    | some kv =>
      intro c hc
      simp only [writeResults, List.mem_cons] at hc
      rcases hc with hc | hc | hc
      · exact Or.inl hc
      · exact Or.inr hc
      · exact ih _ c hc

/-- The calls of `search` once the query has been answered with an iterator:
the query, the loop's calls, and `Close` last. -/
theorem search_calls_of_ok (lib : GoLib) (l : Ledger) (a0 : String) (rest : List String)
    (it : List (Option KV)) (hq : l.GetQueryResult (queryString a0) = .ok it) :
    (search lib l (a0 :: rest)).calls =
      StubCall.getQueryResult (queryString a0) ::
        (writeResults lib it "\x7b \"values\": [").1 ++ [StubCall.close] := by
  simp only [search, List.getElem?_cons_zero, hq]
  split <;> rfl

/-- The outcome of `search` when issuing the query fails. -/
theorem search_of_error (lib : GoLib) (l : Ledger) (a0 : String) (rest : List String)
    (e : String) (hq : l.GetQueryResult (queryString a0) = .error e) :
    search lib l (a0 :: rest) =
      ⟨l, [.getQueryResult (queryString a0)], some (Error 500 e)⟩ := by
  simp only [search, List.getElem?_cons_zero, hq]

/-- A `create` that makes no `PutState` call leaves the ledger as it was. -/
theorem create_ledger_of_no_put (lib : GoLib) (l : Ledger) (args : List String)
    (h : ∀ c ∈ (create lib l args).calls, c.isWrite = false) :
    (create lib l args).ledger = l := by
  unfold create at h ⊢
  split
  · rename_i a0 a1 a2 a3 a4 a5 h0 h1 h2 h3 h4 h5
    simp only [h0, h1, h2, h3, h4, h5] at h
    dsimp only at h ⊢
    split
    · rfl
    · rename_i hp
      rw [if_neg hp] at h
      exfalso
      have hw := h (StubCall.putState (lib.ToLower a0) (Doc.ToJson lib ⟨a1, a2, a3, a4, a5⟩))
        (by split <;> simp)
      exact Bool.noConfusion hw
  · rfl

/-- An `Invoke` that makes no `PutState` call leaves the ledger as it was. -/
theorem Invoke_ledger_of_no_put (lib : GoLib) (l : Ledger) (function : String)
    (args : List String)
    (h : ∀ c ∈ (Invoke lib l function args).calls, c.isWrite = false) :
    (Invoke lib l function args).ledger = l := by
  rcases Invoke_effect lib l function args with he | ⟨hf, _⟩
  · exact he
  · subst hf
    rw [Invoke_create] at h ⊢
    exact create_ledger_of_no_put lib l args h

/-- A sequence of calls none of which makes a `PutState` call leaves the
ledger as it was. -/
theorem runCalls_of_no_put (lib : GoLib) (calls : List Call) (l : Ledger)
    (h : ∀ p ∈ runTrace lib l calls, ∀ c ∈ p.2.calls, c.isWrite = false) :
    runCalls lib l calls = l := by
  induction calls generalizing l with
  | nil => rfl
  | cons c cs ih =>
    simp only [runTrace, List.mem_cons] at h
    have h1 := Invoke_ledger_of_no_put lib l c.function c.args
      (h (c, Invoke lib l c.function c.args) (Or.inl rfl))
    simp only [runCalls]
    rw [h1] at h ⊢
    exact ih l (fun p hp => h p (Or.inr hp))

/-- C13: search is read-only and repeatable.  For every store and pattern,
`search` leaves the store as it was and makes no `PutState` call; and a second
`search` with the same pattern, issued after any sequence of calls that make
no `PutState` call (none at all included), has the same outcome as the first:
the same stub calls and the same status, message and payload. -/
theorem search_read_only_repeatable (lib : GoLib) (l : Ledger) (pattern : String)
    (between : List Call)
    (hnowrite : ∀ p ∈ runTrace lib (search lib l [pattern]).ledger between,
      ∀ c ∈ p.2.calls, c.isWrite = false) :
    (search lib l [pattern]).ledger = l ∧
    (∀ c ∈ (search lib l [pattern]).calls, c.isWrite = false) ∧
    search lib (runCalls lib (search lib l [pattern]).ledger between) [pattern] =
      search lib l [pattern] := by
  refine ⟨search_ledger lib l [pattern], ?_, ?_⟩
  · intro c hmem
    cases hq : l.GetQueryResult (queryString pattern) with
    | error e =>
      rw [search_of_error lib l pattern [] e hq] at hmem
      simp only [List.mem_singleton] at hmem
      rw [hmem]
      rfl
    | ok it =>
      rw [search_calls_of_ok lib l pattern [] it hq] at hmem
      simp only [List.cons_append, List.mem_cons, List.mem_append, List.not_mem_nil,
        or_false] at hmem
      rcases hmem with hmem | hmem | hmem
      · rw [hmem]
        rfl
      · rcases writeResults_calls lib it _ _ hmem with h | h <;> rw [h] <;> rfl
      · rw [hmem]
        rfl
  · rw [runCalls_of_no_put lib between _ hnowrite, search_ledger]

/-- Witness for C13: on the sample store a `search`, then a `read`, an unknown
operation, a `create` that aborts on a short argument list and another
`search`, then the first `search` again. -/
theorem search_read_only_repeatable_witness :
    (search sampleLib sampleLedger ["^Wid"]).ledger = sampleLedger ∧
    (∀ c ∈ (search sampleLib sampleLedger ["^Wid"]).calls, c.isWrite = false) ∧
    search sampleLib
      (runCalls sampleLib (search sampleLib sampleLedger ["^Wid"]).ledger
        [⟨"read", ["r1"]⟩, ⟨"delete", ["r1"]⟩, ⟨"create", ["r1"]⟩, ⟨"search", ["x"]⟩])
      ["^Wid"] =
      search sampleLib sampleLedger ["^Wid"] :=
  search_read_only_repeatable sampleLib sampleLedger "^Wid"
    [⟨"read", ["r1"]⟩, ⟨"delete", ["r1"]⟩, ⟨"create", ["r1"]⟩, ⟨"search", ["x"]⟩]
    (by decide)

/-- C15: iterator release.  On every exit path of `search` the iterator that
was obtained is closed exactly once, as the last call: when the query is
answered with an iterator the calls end with `Close` and hold it once, both on
the successful return (every `Next` yields a record, an envelope is returned)
and on the abort in the loop (a `Next` hands back nil, no envelope); when
issuing the query fails no iterator is obtained, the 500 envelope is returned
and `Close` is not called; and on the abort before the query no stub call is
made at all. -/
theorem search_releases_iterator (lib : GoLib) (l : Ledger) :
    (search lib l []).calls = [] ∧
    (∀ (a0 : String) (rest : List String) (e : String),
      l.GetQueryResult (queryString a0) = .error e →
        search lib l (a0 :: rest) =
          ⟨l, [.getQueryResult (queryString a0)], some (Error 500 e)⟩ ∧
        (search lib l (a0 :: rest)).calls.count StubCall.close = 0) ∧
    (∀ (a0 : String) (rest : List String) (it : List (Option KV)),
      l.GetQueryResult (queryString a0) = .ok it →
        (search lib l (a0 :: rest)).calls.count StubCall.close = 1 ∧
        (search lib l (a0 :: rest)).calls.getLast? = some StubCall.close ∧
        ((search lib l (a0 :: rest)).response = none ↔ none ∈ it)) := by
  refine ⟨rfl, ?_, ?_⟩
  · intro a0 rest e hq
    rw [search_of_error lib l a0 rest e hq]
    exact ⟨rfl, by simp⟩
  · intro a0 rest it hq
    rw [search_calls_of_ok lib l a0 rest it hq]
    refine ⟨?_, ?_, ?_⟩
    · have hz : List.count StubCall.close (writeResults lib it "\x7b \"values\": [").1 = 0 := by
        rw [List.count_eq_zero]
        intro hmem
        rcases writeResults_calls lib it _ _ hmem with h | h <;> exact StubCall.noConfusion h
      rw [List.count_append, List.count_cons, hz]
      simp
    · rw [List.getLast?_append]
      rfl
    · rw [search_response_none_iff]
      constructor
      · rintro (h | ⟨b0, it', hb, hq', hmem⟩)
        · simp at h
        · simp only [List.getElem?_cons_zero, Option.some.injEq] at hb
          subst hb
          rw [hq] at hq'
          cases hq'
          exact hmem
      · intro hmem
        exact Or.inr ⟨a0, it, List.getElem?_cons_zero, hq, hmem⟩

/-! ## The search aggregate -/

theorem utf8ByteSize_append (a b : String) :
    (a ++ b).utf8ByteSize = a.utf8ByteSize + b.utf8ByteSize := by
  cases a
  cases b
  show String.utf8ByteSize (String.mk _) = _
  simp only [String.utf8ByteSize_mk, String.utf8Len_append]

/-- Once an object has been written the buffer is longer than 15 bytes. -/
theorem renderObject_size (buffer key : String) (d : Doc) :
    15 < (buffer ++ renderObject key d).utf8ByteSize := by
  have h1 : ("\x7b\"id\":\"" : String).utf8ByteSize = 7 := by decide
  have h2 : ("\", \"review\":\"" : String).utf8ByteSize = 13 := by decide
  simp only [renderObject, utf8ByteSize_append, h1, h2]
  omega

/-- One turn of the loop of `search` on a record whose repeated decoding
gives what the first decoding gave: a comma when the buffer is longer than 15
bytes, then the record's object. -/
theorem writeResults_some (lib : GoLib) (kv : KV) (rest : List (Option KV)) (buffer : String)
    (hdecode : Doc.FromJson lib (Doc.FromJson lib Doc.zero kv.Value) kv.Value =
      Doc.FromJson lib Doc.zero kv.Value) :
    (writeResults lib (some kv :: rest) buffer).2 =
      (writeResults lib rest
        ((if buffer.utf8ByteSize > 15 then buffer ++ "," else buffer) ++
          renderObject kv.Key (Doc.FromJson lib Doc.zero kv.Value))).2 := by
  simp only [writeResults, hdecode, renderObject, String.append_assoc]

/-- The loop of `search` started on a buffer longer than 15 bytes writes a
comma before every object. -/
theorem writeResults_long (lib : GoLib) (results : List KV) (kv : KV) (buffer : String)
    (hlong : 15 < buffer.utf8ByteSize)
    (hdecode : ∀ r ∈ kv :: results,
      Doc.FromJson lib (Doc.FromJson lib Doc.zero r.Value) r.Value =
        Doc.FromJson lib Doc.zero r.Value) :
    (writeResults lib ((kv :: results).map some) buffer).2 =
      some (buffer ++ "," ++
        joinComma ((kv :: results).map
          (fun r => renderObject r.Key (Doc.FromJson lib Doc.zero r.Value)))) := by
  induction results generalizing kv buffer with
  | nil =>
    rw [List.map_cons, writeResults_some lib kv _ buffer (hdecode kv (List.mem_cons_self _ _)),
      if_pos hlong]
    rfl
  | cons r rs ih =>
    rw [List.map_cons, writeResults_some lib kv _ buffer (hdecode kv (List.mem_cons_self _ _)),
      if_pos hlong,
      ih r _ (renderObject_size _ _ _) (fun x hx => hdecode x (List.mem_cons_of_mem _ hx))]
    simp only [List.map_cons, joinComma, String.append_assoc]

/-- The loop of `search` started on the opening text writes the objects with
one comma between consecutive ones. -/
theorem writeResults_opening (lib : GoLib) (results : List KV)
    (hdecode : ∀ r ∈ results,
      Doc.FromJson lib (Doc.FromJson lib Doc.zero r.Value) r.Value =
        Doc.FromJson lib Doc.zero r.Value) :
    (writeResults lib (results.map some) "\x7b \"values\": [").2 =
      some ("\x7b \"values\": [" ++
        joinComma (results.map
          (fun r => renderObject r.Key (Doc.FromJson lib Doc.zero r.Value)))) := by
  have hshort : ¬ (("\x7b \"values\": [" : String).utf8ByteSize > 15) := by decide
  cases results with
  | nil => rfl
  | cons kv rs =>
    rw [List.map_cons, writeResults_some lib kv _ _ (hdecode kv (List.mem_cons_self _ _)),
      if_neg hshort]
    cases rs with
    | nil => rfl
    | cons r rs =>
      rw [writeResults_long lib rs r _ (renderObject_size _ _ _)
        (fun x hx => hdecode x (List.mem_cons_of_mem _ hx))]
      simp only [List.map_cons, joinComma, String.append_assoc]

/-- The abort path of `search` on a concrete store: the second `Next` hands
back nil, no envelope is returned, and `Close` is the last call made. -/
theorem search_abort_closes :
    (search sampleLib failingNextLedger ["^Wid"]).response = none ∧
    (search sampleLib failingNextLedger ["^Wid"]).calls =
      [.getQueryResult (queryString "^Wid"), .hasNext, .next, .hasNext, .next, .close] := by
  exact ⟨rfl, rfl⟩

/-- C16: search aggregate structure.  For every finite sequence of records
yielded by a successful query, whatever their values, `search` answers 200
"OK" and its payload is the opening text `{ "values": [`, then the objects of
the records in iterator order with exactly one comma between consecutive
ones, then `]}`; the object of a record is
`{"id":"KEY", "review":"R", "product":"T", "name":"N", "location":"L", "rating":"G"}`
with the record's key and the fields `json.Unmarshal` leaves in a zero `Doc`
when it reads the record's value (no bytes for a nil value); a record whose
value leaves the zero `Doc` untouched is written with five empty fields.  The
test `buffer.Len() > 15` is false on the opening text (13 bytes) and true on
every buffer that ends with an object.  Of the JSON library one fact is used:
reading a value again into the document it was read into changes nothing. -/
theorem search_aggregate (lib : GoLib) (l : Ledger) (pattern : String) (results : List KV)
    (hquery : l.GetQueryResult (queryString pattern) = .ok (results.map some))
    (hdecode : ∀ r ∈ results,
      lib.jsonUnmarshal (r.Value.getD "")
          (lib.jsonUnmarshal (r.Value.getD "") ⟨"", "", "", "", ""⟩) =
        lib.jsonUnmarshal (r.Value.getD "") ⟨"", "", "", "", ""⟩) :
    (search lib l [pattern]).response =
      some { Status := 200, Message := "OK",
             Payload := some ("\x7b \"values\": [" ++
               joinComma (results.map
                 (fun r => renderObject r.Key
                   (lib.jsonUnmarshal (r.Value.getD "") ⟨"", "", "", "", ""⟩))) ++
               "]\x7d") } ∧
    (∀ r ∈ results,
      lib.jsonUnmarshal (r.Value.getD "") ⟨"", "", "", "", ""⟩ = ⟨"", "", "", "", ""⟩ →
      renderObject r.Key (lib.jsonUnmarshal (r.Value.getD "") ⟨"", "", "", "", ""⟩) =
        "\x7b\"id\":\"" ++ r.Key ++
          "\", \"review\":\"\", \"product\":\"\", \"name\":\"\", \"location\":\"\", \"rating\":\"\"\x7d") ∧
    ("\x7b \"values\": [" : String).utf8ByteSize = 13 ∧
    (∀ (buffer key : String) (d : Doc), 15 < (buffer ++ renderObject key d).utf8ByteSize) := by
  refine ⟨?_, ?_, by decide, renderObject_size⟩
  · have hopen := writeResults_opening lib results hdecode
    simp only [Doc.FromJson, Doc.zero] at hopen
    simp only [search, List.getElem?_cons_zero, hquery, hopen, Success_OK]
  · intro r _ hzero
    rw [hzero]
    simp only [renderObject, String.append_assoc]
    rfl

set_option maxRecDepth 10000 in
/-- Witness for C16: three records, the first with the text of a document,
the second with a value that is not JSON and the third with a nil value; the
last two are written with empty fields. -/
theorem search_aggregate_witness :
    (search sampleLib (resultsLedger mixedRecords) ["^Wid"]).response =
      some { Status := 200, Message := "OK",
             Payload := some "\x7b \"values\": [\x7b\"id\":\"r1\", \"review\":\"Great!\", \"product\":\"Widget\", \"name\":\"Alice\", \"location\":\"NY\", \"rating\":\"5\"\x7d,\x7b\"id\":\"r2\", \"review\":\"\", \"product\":\"\", \"name\":\"\", \"location\":\"\", \"rating\":\"\"\x7d,\x7b\"id\":\"r3\", \"review\":\"\", \"product\":\"\", \"name\":\"\", \"location\":\"\", \"rating\":\"\"\x7d]\x7d" } :=
  (search_aggregate sampleLib (resultsLedger mixedRecords) "^Wid" mixedRecords rfl
    (by decide)).1

/-- C17 (the code at the failing input): the fields are written as they are,
without escaping.  On the two records with keys `a` and `b` and on the one
record whose key is the text
`a", "review":"r", "product":"t", "name":"n", "location":"l", "rating":"g"},{"id":"b`
`search` answers 200 with the same payload, although the two sequences differ
in length and in their first key. -/
theorem search_aggregate_ambiguous :
    (search sampleLib (resultsLedger twoRecords) ["x"]).response =
      (search sampleLib (resultsLedger oneRecord) ["x"]).response ∧
    (search sampleLib (resultsLedger twoRecords) ["x"]).response =
      some { Status := 200, Message := "OK",
             Payload := some "\x7b \"values\": [\x7b\"id\":\"a\", \"review\":\"r\", \"product\":\"t\", \"name\":\"n\", \"location\":\"l\", \"rating\":\"g\"\x7d,\x7b\"id\":\"b\", \"review\":\"r2\", \"product\":\"t2\", \"name\":\"n2\", \"location\":\"l2\", \"rating\":\"g2\"\x7d]\x7d" } ∧
    twoRecords.length = 2 ∧ oneRecord.length = 1 ∧
    twoRecords.map KV.Key ≠ oneRecord.map KV.Key := by
  refine ⟨rfl, rfl, rfl, rfl, by decide⟩

/-! ## Status codes -/

/-- The responses `read` can give. -/
theorem read_response_cases (lib : GoLib) (l : Ledger) (args : List String) (r : Response)
    (h : (read lib l args).response = some r) :
    r = Error 404 "Not Found" ∨
    ∃ v, r = { Status := 200, Message := "OK", Payload := some v } := by
  cases args with
  | nil => simp [read] at h
  | cons a0 rest =>
    simp only [read, List.getElem?_cons_zero, Ledger.GetState] at h
    split at h
    · left
      simp only [Option.some.injEq] at h
      exact h.symm
    · rename_i hc
      right
      rw [not_or] at hc
      obtain ⟨v, hv⟩ := Option.ne_none_iff_exists'.mp hc.2
      refine ⟨v, ?_⟩
      simp only [Option.some.injEq, Success_OK, hv] at h
      exact h.symm

/-- The responses `create` can give; the 500 one carries the error text of
the failed write. -/
theorem create_response_cases (lib : GoLib) (l : Ledger) (args : List String) (r : Response)
    (h : (create lib l args).response = some r) :
    r = Error 409 "Text Exists" ∨
    (∃ k v e, (l.PutState k v).2 = some e ∧ r = Error 500 e) ∨
    r = { Status := 201, Message := "Text Created", Payload := none } := by
  unfold create at h
  split at h
  · rename_i a0 a1 a2 a3 a4 a5 h0 h1 h2 h3 h4 h5
    dsimp only at h
    split at h
    · left
      simp only [Option.some.injEq] at h
      exact h.symm
    · split at h
      · rename_i e he
        right
        left
        simp only [Option.some.injEq] at h
        exact ⟨_, _, e, he, h.symm⟩
      · right
        right
        simp only [Option.some.injEq, Success_TextCreated] at h
        exact h.symm
  · simp at h

/-- The responses `search` can give; the 500 one carries the error text of
the failed query. -/
theorem search_response_cases (lib : GoLib) (l : Ledger) (args : List String) (r : Response)
    (h : (search lib l args).response = some r) :
    (∃ q e, l.GetQueryResult q = .error e ∧ r = Error 500 e) ∨
    ∃ b, r = { Status := 200, Message := "OK", Payload := some b } := by
  cases args with
  | nil => simp [search] at h
  | cons a0 rest =>
    simp only [search, List.getElem?_cons_zero] at h
    split at h
    · rename_i e he
      left
      simp only [Option.some.injEq] at h
      exact ⟨_, e, he, h.symm⟩
    · split at h
      · simp at h
      · right
        simp only [Option.some.injEq, Success_OK] at h
        exact ⟨_, h.symm⟩

/-- C18: status codes per operation.  `Invoke create` with six or more
arguments returns an envelope with status 201, 409 or 500; `Invoke read` with
one or more arguments returns one with status 200 or 404; `Invoke search`
with one or more arguments whose iterator yields records only returns one,
and every envelope of `search` has status 200 or 500; `Init` returns one with
status 200 or 400.  The size-cap branch of `Success` is not taken on the
messages "OK" and "Text Created" the handlers and `Init` pass to it, whatever
the payload: the 500 of `create` is the error of a failed write and the 500 of
`search` the error of a failed query.  Every envelope of `Invoke` or `Init`
with status 400 or above has no payload. -/
theorem status_codes (lib : GoLib) (l : Ledger) (args : List String) :
    (6 ≤ args.length → ∃ r, (Invoke lib l "create" args).response = some r ∧
      (r.Status = 201 ∨ r.Status = 409 ∨ r.Status = 500)) ∧
    (1 ≤ args.length → ∃ r, (Invoke lib l "read" args).response = some r ∧
      (r.Status = 200 ∨ r.Status = 404)) ∧
    (1 ≤ args.length →
      (∀ a0 it, args[0]? = some a0 → l.GetQueryResult (queryString a0) = .ok it → none ∉ it) →
      ∃ r, (Invoke lib l "search" args).response = some r) ∧
    (∀ r, (Invoke lib l "search" args).response = some r → r.Status = 200 ∨ r.Status = 500) ∧
    (∃ r, (Init l args).response = some r ∧ (r.Status = 200 ∨ r.Status = 400)) ∧
    (∀ rc payload,
      Success rc "OK" payload = { Status := rc, Message := "OK", Payload := payload } ∧
      Success rc "Text Created" payload =
        { Status := rc, Message := "Text Created", Payload := payload }) ∧
    (∀ r, (Invoke lib l "create" args).response = some r → r.Status = 500 →
      ∃ k v e, (l.PutState k v).2 = some e ∧ r = Error 500 e) ∧
    (∀ r, (Invoke lib l "search" args).response = some r → r.Status = 500 →
      ∃ q e, l.GetQueryResult q = .error e ∧ r = Error 500 e) ∧
    (∀ function r, (Invoke lib l function args).response = some r →
      400 ≤ r.Status → r.Payload = none) ∧
    (∀ r, (Init l args).response = some r → 400 ≤ r.Status → r.Payload = none) := by
  have hcreate : ∀ r, (Invoke lib l "create" args).response = some r →
      r = Error 409 "Text Exists" ∨
      (∃ k v e, (l.PutState k v).2 = some e ∧ r = Error 500 e) ∨
      r = { Status := 201, Message := "Text Created", Payload := none } := by
    intro r hr
    rw [Invoke_create] at hr
    exact create_response_cases lib l args r hr
  have hread : ∀ r, (Invoke lib l "read" args).response = some r →
      r = Error 404 "Not Found" ∨
      ∃ v, r = { Status := 200, Message := "OK", Payload := some v } := by
    intro r hr
    rw [Invoke_read] at hr
    exact read_response_cases lib l args r hr
  have hsearch : ∀ r, (Invoke lib l "search" args).response = some r →
      (∃ q e, l.GetQueryResult q = .error e ∧ r = Error 500 e) ∨
      ∃ b, r = { Status := 200, Message := "OK", Payload := some b } := by
    intro r hr
    rw [Invoke_search] at hr
    exact search_response_cases lib l args r hr
  have hinit : (Init l args).response = some (Success 200 "OK" none) ∨
      (Init l args).response =
        some (Error 400 "Init: Incorrect number of arguments; no arguments were expected.") := by
    unfold Init
    split
    · exact Or.inr rfl
    · exact Or.inl rfl
  refine ⟨?_, ?_, ?_, ?_, ?_, ?_, ?_, ?_, ?_, ?_⟩
  · intro hlen
    have hne : (Invoke lib l "create" args).response ≠ none := by
      rw [Invoke_create]
      intro hn
      have := (create_response_none_iff lib l args).mp hn
      omega
    obtain ⟨r, hr⟩ := Option.ne_none_iff_exists'.mp hne
    refine ⟨r, hr, ?_⟩
    rcases hcreate r hr with h | ⟨_, _, e, _, h⟩ | h <;> rw [h] <;> simp [Error]
  · intro hlen
    have hne : (Invoke lib l "read" args).response ≠ none := by
      rw [Invoke_read]
      intro hn
      have := (read_response_none_iff lib l args).mp hn
      omega
    obtain ⟨r, hr⟩ := Option.ne_none_iff_exists'.mp hne
    refine ⟨r, hr, ?_⟩
    rcases hread r hr with h | ⟨v, h⟩ <;> rw [h] <;> simp [Error]
  · intro hlen hnext
    apply Option.ne_none_iff_exists'.mp
    rw [Invoke_search]
    intro hn
    rcases (search_response_none_iff lib l args).mp hn with h | ⟨a0, it, h0, hq, hmem⟩
    · omega
    · exact hnext a0 it h0 hq hmem
  · intro r hr
    rcases hsearch r hr with ⟨_, e, _, h⟩ | ⟨b, h⟩ <;> rw [h] <;> simp [Error]
  · rcases hinit with h | h
    · exact ⟨_, h, Or.inl (by rw [Success_OK])⟩
    · exact ⟨_, h, Or.inr rfl⟩
  · intro rc payload
    exact ⟨Success_OK rc payload, Success_TextCreated rc payload⟩
  · intro r hr h500
    rcases hcreate r hr with h | h | h
    · rw [h] at h500
      simp [Error] at h500
    · exact h
    · rw [h] at h500
      simp at h500
  · intro r hr h500
    rcases hsearch r hr with h | ⟨b, h⟩
    · exact h
    · rw [h] at h500
      simp at h500
  · intro function r hr hge
    by_cases hf1 : function = "read"
    · subst hf1
      rcases hread r hr with h | ⟨v, h⟩
      · rw [h]
        rfl
      · rw [h] at hge
        simp at hge
    · by_cases hf2 : function = "create"
      · subst hf2
        rcases hcreate r hr with h | ⟨_, _, e, _, h⟩ | h
        · rw [h]
          rfl
        · rw [h]
          rfl
        · rw [h]
      · by_cases hf3 : function = "search"
        · subst hf3
          rcases hsearch r hr with ⟨_, e, _, h⟩ | ⟨b, h⟩
          · rw [h]
            rfl
          · rw [h] at hge
            simp at hge
        · simp only [Invoke, hf1, hf2, hf3, if_false, Option.some.injEq] at hr
          rw [← hr]
          rfl
  · intro r hr hge
    rcases hinit with h | h
    · rw [h, Success_OK] at hr
      simp only [Option.some.injEq] at hr
      rw [← hr]
    · rw [h] at hr
      simp only [Option.some.injEq] at hr
      rw [← hr]
      rfl

/-! ## Stored keys and values -/

/-- What `create` does to the ledger, with the arguments it read: nothing, or
the write of the encoded five fields at the folded first argument together
with the response 201. -/
theorem create_effect_args (lib : GoLib) (l : Ledger) (args : List String) :
    (create lib l args).ledger = l ∨
    ∃ a0 a1 a2 a3 a4 a5,
      args[0]? = some a0 ∧ args[1]? = some a1 ∧ args[2]? = some a2 ∧
      args[3]? = some a3 ∧ args[4]? = some a4 ∧ args[5]? = some a5 ∧
      (create lib l args).response =
        some { Status := 201, Message := "Text Created", Payload := none } ∧
      (create lib l args).ledger.state =
        Function.update l.state (lib.ToLower a0) (Doc.ToJson lib ⟨a1, a2, a3, a4, a5⟩) := by
  unfold create
  split
  · rename_i a0 a1 a2 a3 a4 a5 h0 h1 h2 h3 h4 h5
    dsimp only [Ledger.GetState]
    by_cases h : l.getError (lib.ToLower a0) = none ∧ l.state (lib.ToLower a0) = none
    · rw [if_neg (not_not_intro h)]
      cases hp : l.putError (lib.ToLower a0) (Doc.ToJson lib ⟨a1, a2, a3, a4, a5⟩) with
      | some e =>
        left
        simp [Ledger.PutState, hp]
      | none =>
        right
        refine ⟨a0, a1, a2, a3, a4, a5, h0, h1, h2, h3, h4, h5, ?_, ?_⟩
        · simp [Ledger.PutState, hp, Success_TextCreated]
        · simp [Ledger.PutState, hp]
    · rw [if_pos h]
      exact Or.inl rfl
  · exact Or.inl rfl

/-- Where the value of a key after a sequence of calls comes from: it is the
value the key had before, or the value a `create` of the sequence wrote. -/
theorem runCalls_state_origin (lib : GoLib) (calls : List Call) (l : Ledger) (k : String) :
    (runCalls lib l calls).state k = l.state k ∨
    ∃ p ∈ runTrace lib l calls, WroteBy lib p k ((runCalls lib l calls).state k) := by
  induction calls generalizing l with
  | nil => exact Or.inl rfl
  | cons c cs ih =>
    simp only [runCalls, runTrace, List.mem_cons]
    rcases ih (Invoke lib l c.function c.args).ledger with hsame | ⟨p, hp, hw⟩
    · rcases Invoke_effect lib l c.function c.args with he | ⟨hf, _⟩
      · exact Or.inl (hsame.trans (by rw [he]))
      · have hinv : Invoke lib l c.function c.args = create lib l c.args := by
          rw [hf, Invoke_create]
        rcases create_effect_args lib l c.args with he | ⟨a0, a1, a2, a3, a4, a5, h0, h1, h2, h3, h4, h5, hr, hl⟩
        · exact Or.inl (hsame.trans (by rw [hinv, he]))
        · by_cases hk : k = lib.ToLower a0
          · right
            refine ⟨(c, Invoke lib l c.function c.args), Or.inl rfl, ?_⟩
            refine ⟨a0, a1, a2, a3, a4, a5, hf, h0, h1, h2, h3, h4, h5, ?_, hk.symm, ?_⟩
            · rw [hinv]
              exact hr
            · rw [hsame, hinv, hl, hk]
              simp
          · left
            rw [hsame, hinv, hl]
            simp [Function.update, hk]
    · exact Or.inr ⟨p, Or.inr hp, hw⟩

/-- The key folding of the sample library changes nothing when applied
again. -/
theorem sampleLib_ToLower_idem (s : String) :
    sampleLib.ToLower (sampleLib.ToLower s) = sampleLib.ToLower s := by
  have hchar : ∀ c : Char, c.toLower.toLower = c.toLower := by
    intro c
    by_cases h : c.toNat ≥ 65 ∧ c.toNat ≤ 90
    · have h1 : c.toLower = Char.ofNat (c.toNat + 32) := by
        simp only [Char.toLower]
        rw [if_pos h]
      rw [h1]
      obtain ⟨ha, hb⟩ := h
      generalize c.toNat = n at ha hb
      interval_cases n <;> rfl
    · have h1 : c.toLower = c := by
        simp only [Char.toLower]
        rw [if_neg h]
      rw [h1, h1]
  show String.mk (List.map Char.toLower (List.map Char.toLower s.data)) =
    String.mk (List.map Char.toLower s.data)
  rw [List.map_map]
  congr 1
  apply List.map_congr_left
  intro c _
  exact hchar c

/-- C19: stored keys are lowercase.  Starting from the empty store, after any
finite sequence of `Invoke` calls every key that holds a value is the folded
first argument of a `create` call of the sequence that answered 201, the value
it holds is the encoding (`Doc.ToJson`) of the five fields given to that call,
and the key is a fixed point of the folding.  The string library enters
through the one fact that `strings.ToLower` applied to its own result changes
nothing. -/
theorem stored_keys_lowercase (lib : GoLib)
    (getError : String → Option String)
    (putError : String → Option String → Option String)
    (queryEngine : (String → Option String) → String → Except String (List (Option KV)))
    (calls : List Call) (k v : String)
    (hidem : ∀ s, lib.ToLower (lib.ToLower s) = lib.ToLower s)
    (hpresent : (runCalls lib (Ledger.empty getError putError queryEngine) calls).state k =
      some v) :
    lib.ToLower k = k ∧
    ∃ p ∈ runTrace lib (Ledger.empty getError putError queryEngine) calls,
      WroteBy lib p k (some v) := by
  rcases runCalls_state_origin lib calls (Ledger.empty getError putError queryEngine) k with
    h | ⟨p, hp, hw⟩
  · rw [hpresent] at h
    exact Option.noConfusion h
  · rw [hpresent] at hw
    refine ⟨?_, p, hp, hw⟩
    obtain ⟨a0, _, _, _, _, _, _, _, _, _, _, _, _, _, hk, _⟩ := hw
    rw [← hk]
    exact hidem a0

/-- Witness for C19: after `create("AbC", …)`, a `read` and a second `create`
for "ABC" on the sample store, the key "abc" holds the encoding of the fields
of the first `create`. -/
theorem stored_keys_lowercase_witness :
    sampleLib.ToLower "abc" = "abc" ∧
    ∃ p ∈ runTrace sampleLib
        (Ledger.empty (fun _ => none) (fun _ _ => none) (fun _ _ => .ok []))
        [⟨"create", ["AbC", "Widget", "Great!", "Alice", "NY", "5"]⟩, ⟨"read", ["abc"]⟩,
          ⟨"create", ["ABC", "Gadget", "Poor", "Bob", "LA", "1"]⟩],
      WroteBy sampleLib p "abc" (some (plainMarshal ⟨"Widget", "Great!", "Alice", "NY", "5"⟩)) :=
  stored_keys_lowercase sampleLib (fun _ => none) (fun _ _ => none) (fun _ _ => .ok [])
    [⟨"create", ["AbC", "Widget", "Great!", "Alice", "NY", "5"]⟩, ⟨"read", ["abc"]⟩,
      ⟨"create", ["ABC", "Gadget", "Poor", "Bob", "LA", "1"]⟩]
    "abc" (plainMarshal ⟨"Widget", "Great!", "Alice", "NY", "5"⟩)
    sampleLib_ToLower_idem (by decide)

end ProductReview
